import Mathlib

/-!
Verification of the BioSimulators utilities library (SED-ML / COMBINE data
models and the SED document executor) against its natural-language
specification.

The Lean definitions below are a shallow embedding of the Python sources:

* src/biosimulators_utils/combine/data_model.py
  (CombineArchive, CombineArchiveContent, CombineArchiveAuthor)
* src/biosimulators_utils/sedml/data_model.py
  (SED entity classes, MATHEMATICAL_FUNCTIONS)
* src/biosimulators_utils/sedml/exec.py (exec_doc)

Modelling conventions, used throughout:

* Python `str` attributes (which default to `None`) become `Option String`;
  `datetime` attributes become `Option Int` (timestamps); `float` attributes
  become `Option Rat` (real-valued doubles, ignoring NaN/Inf, which the
  spec's equality discipline does not contemplate).
* Python tuples returned by `to_tuple` become values of per-class tuple
  types; `None` entries become `⊥` of a `WithBot` type, which orders `None`
  before every other value exactly as the spec requires of `none_sorted`.
* Helpers that live in files of this repository that are not under src/
  (`utils/core.py`: `are_lists_equal`, `none_sorted`; `sedml/utils.py`:
  `get_variables_for_task`, `calc_data_generator_results`,
  `apply_changes_to_xml_model`) are modelled from the spec's words; each
  such definition carries a doc comment starting with `Modelled from the
  spec:`.
* Mutation of Python objects is treated at value level (the executor's
  working copy is threaded functionally); a small explicit heap model is
  used where aliasing itself is the property under test (claim C8).
-/

/-- Embeds an optional value into `WithBot`, the codomain used for tuple
components produced by `to_tuple`: Python `None` becomes `⊥`, which sorts
before every proper value, matching the spec's description of `none_sorted`
("None sorts before any value"). -/
def toWB {α : Type} (o : Option α) : WithBot α :=
  match o with
  | none => ⊥
  | some a => (a : WithBot α)

theorem toWB_inj {α : Type} (a b : Option α) : toWB a = toWB b ↔ a = b := by
  cases a <;> cases b <;> simp [toWB]

/-- Modelled from the spec: `none_sorted` (utils/core.py, not under src/)
sorts a list of tuple projections into the canonical fully-ordered form used
by `to_tuple`, with `None` (here `⊥`) sorting before any value.  Python's
plain `sorted` on tuples (used in combine/data_model.py) is modelled by the
same function. -/
def pysorted {α : Type} [LinearOrder α] (xs : List α) : List α :=
  xs.mergeSort (fun a b => decide (a ≤ b))

theorem pysorted_perm {α : Type} [LinearOrder α] (xs : List α) :
    (pysorted xs).Perm xs :=
  List.mergeSort_perm xs _

theorem pysorted_sorted {α : Type} [LinearOrder α] (xs : List α) :
    List.Sorted (· ≤ ·) (pysorted xs) := by
  have h := @List.sorted_mergeSort α (fun a b => decide (a ≤ b))
    (by intro a b c hab hbc
        simp only [decide_eq_true_iff] at *
        exact le_trans hab hbc)
    (by intro a b
        simp only [Bool.or_eq_true, decide_eq_true_iff]
        exact le_total a b)
    xs
  exact h.imp (by intro a b hab; simpa using hab)

theorem pysorted_eq_iff {α : Type} [LinearOrder α] (xs ys : List α) :
    pysorted xs = pysorted ys ↔ xs.Perm ys := by
  constructor
  · intro h
    exact ((pysorted_perm xs).symm.trans (h ▸ pysorted_perm ys))
  · intro h
    exact List.eq_of_perm_of_sorted
      (((pysorted_perm xs).trans h).trans (pysorted_perm ys).symm)
      (pysorted_sorted xs) (pysorted_sorted ys)

/-- Finds the first element satisfying `p` and returns it together with the
remaining elements (in their original order).  Auxiliary for the
unordered-multiset list comparison below. -/
def findExtract {α : Type} (p : α → Bool) : List α → Option (α × List α)
  | [] => none
  | x :: xs =>
    if p x then some (x, xs)
    else
      match findExtract p xs with
      | none => none
      | some (y, ys) => some (y, x :: ys)

theorem findExtract_some {α : Type} (p : α → Bool) :
    ∀ {ys : List α} {y : α} {ys' : List α},
      findExtract p ys = some (y, ys') → p y = true ∧ ys.Perm (y :: ys') := by
  intro ys
  induction ys with
  | nil => intro y ys' h; simp [findExtract] at h
  | cons x xs ih =>
    intro y ys' h
    by_cases hx : p x = true
    · simp [findExtract, hx] at h
      obtain ⟨h1, h2⟩ := h
      subst h1; subst h2
      exact ⟨hx, List.Perm.refl _⟩
    · simp [findExtract, hx] at h
      cases hfe : findExtract p xs with
      | none => rw [hfe] at h; simp at h
      | some r =>
        obtain ⟨z, zs⟩ := r
        rw [hfe] at h
        simp at h
        obtain ⟨h1, h2⟩ := h
        subst h1; subst h2
        obtain ⟨hp, hperm⟩ := ih hfe
        refine ⟨hp, ?_⟩
        exact (hperm.cons x).trans (List.Perm.swap _ x _)

theorem findExtract_none {α : Type} (p : α → Bool) :
    ∀ {ys : List α}, findExtract p ys = none → ∀ y ∈ ys, p y = false := by
  intro ys
  induction ys with
  | nil => intro _ y hy; simp at hy
  | cons x xs ih =>
    intro h y hy
    by_cases hx : p x = true
    · simp [findExtract, hx] at h
    · simp [findExtract, hx] at h
      cases hfe : findExtract p xs with
      | none =>
        rcases List.mem_cons.mp hy with rfl | hmem
        · exact Bool.eq_false_iff.mpr hx
        · exact ih hfe y hmem
      | some r => rw [hfe] at h; simp at h

/-- Modelled from the spec: `are_lists_equal` (utils/core.py, not under
src/) compares two entity lists as unordered multisets, matching elements
with the per-entity `is_equal` predicate ("recursively equal children
compared as unordered multisets"). -/
def are_lists_equal {α : Type} (eq : α → α → Bool) : List α → List α → Bool
  | [], ys => ys.isEmpty
  | x :: xs, ys =>
    match findExtract (eq x) ys with
    | none => false
    | some (_, ys') => are_lists_equal eq xs ys'

/-- When elementwise `is_equal` coincides with equality of tuple
projections, the unordered-multiset comparison coincides with permutation
of the projected lists. -/
theorem are_lists_equal_iff {α β : Type} (f : α → β) (eq : α → α → Bool)
    (hf : ∀ x y, eq x y = true ↔ f x = f y) :
    ∀ (xs ys : List α),
      are_lists_equal eq xs ys = true ↔ (xs.map f).Perm (ys.map f) := by
  intro xs
  induction xs with
  | nil =>
    intro ys
    simp only [are_lists_equal, List.map_nil]
    constructor
    · intro h
      have : ys = [] := by
        cases ys with
        | nil => rfl
        | cons a as => simp [List.isEmpty] at h
      subst this; simp
    · intro h
      have := List.nil_perm.mp h
      have hys : ys = [] := List.map_eq_nil_iff.mp this
      subst hys; rfl
  | cons x xs ih =>
    intro ys
    cases hfe : findExtract (eq x) ys with
    | none =>
      simp only [are_lists_equal, hfe]
      constructor
      · intro h; exact absurd h (by simp)
      · intro h
        exfalso
        have hmem : f x ∈ ys.map f := h.mem_iff.mp (by simp)
        obtain ⟨y, hy, hfy⟩ := List.mem_map.mp hmem
        have hfalse := findExtract_none (eq x) hfe y hy
        have htrue : eq x y = true := (hf x y).mpr hfy.symm
        rw [hfalse] at htrue
        exact Bool.false_ne_true htrue
    | some r =>
      obtain ⟨y, ys'⟩ := r
      obtain ⟨hpy, hperm⟩ := findExtract_some (eq x) hfe
      have hfx : f x = f y := (hf x y).mp hpy
      simp only [are_lists_equal, hfe]
      rw [ih ys']
      have hmap : (ys.map f).Perm (f y :: ys'.map f) := by
        simpa using hperm.map f
      constructor
      · intro h
        have h1 : (f x :: List.map f xs).Perm (f y :: List.map f ys') := by
          rw [← hfx]
          exact h.cons (f x)
        simpa using h1.trans hmap.symm
      · intro h
        have h3 : (f x :: List.map f xs).Perm (f y :: List.map f ys') := by
          simpa using h.trans hmap
        rw [hfx] at h3
        exact (List.perm_cons (f y)).mp h3

/-- Combination used by each entity class: the unordered-multiset child
comparison agrees with equality of the sorted child-tuple lists appearing in
`to_tuple`. -/
theorem are_lists_equal_iff_pysorted {α β : Type} [LinearOrder β]
    (f : α → β) (eq : α → α → Bool)
    (hf : ∀ x y, eq x y = true ↔ f x = f y) (xs ys : List α) :
    are_lists_equal eq xs ys = true ↔
      pysorted (xs.map f) = pysorted (ys.map f) := by
  rw [are_lists_equal_iff f eq hf, ← pysorted_eq_iff]

/-- Lifts a per-class `is_equal` over optional children, mirroring the
Python pattern
`(self.x is None and self.x == other.x) or (self.x is not None and self.x.is_equal(other.x))`
(note `x.is_equal(None)` is `False` via the class check). -/
def optIsEqual {α : Type} (eqFn : α → α → Bool) : Option α → Option α → Bool
  | none, b => b.isNone
  | some _, none => false
  | some x, some y => eqFn x y

theorem optIsEqual_iff {α β : Type} (f : α → β) (eqFn : α → α → Bool)
    (hf : ∀ x y, eqFn x y = true ↔ f x = f y) (a b : Option α) :
    optIsEqual eqFn a b = true ↔ a.map f = b.map f := by
  cases a <;> cases b <;> simp [optIsEqual, hf]

/-! ## COMBINE archive data model (combine/data_model.py) -/

/-- An author of a COMBINE/OMEX archive or of a content item
(combine/data_model.py lines 157-193). -/
structure CombineArchiveAuthor where
  given_name : Option String
  family_name : Option String
deriving DecidableEq

/-- Tuple representation of an author: `(family_name, given_name)`
(combine/data_model.py lines 187-193; note the order differs from the
constructor's). -/
abbrev AuthorTup := Lex (WithBot String × WithBot String)

def CombineArchiveAuthor.to_tuple (a : CombineArchiveAuthor) : AuthorTup :=
  toLex (toWB a.family_name, toWB a.given_name)

/-- Structural equality of authors (combine/data_model.py lines 174-185).
The Python `self.__class__ == other.__class__` guard is `true` here because
both arguments have the same Lean type; cross-class pairs are modelled by
`PyEntity` below. -/
def CombineArchiveAuthor.is_equal (a other : CombineArchiveAuthor) : Bool :=
  decide (a.given_name = other.given_name) &&
  decide (a.family_name = other.family_name)

theorem author_is_equal_iff_tuple (a b : CombineArchiveAuthor) :
    a.is_equal b = true ↔ a.to_tuple = b.to_tuple := by
  simp only [CombineArchiveAuthor.is_equal, CombineArchiveAuthor.to_tuple, Bool.and_eq_true, decide_eq_true_iff,
    toLex_inj, Prod.mk.injEq, toWB_inj]
  tauto

/-- A content item of a COMBINE/OMEX archive
(combine/data_model.py lines 97-154). -/
structure CombineArchiveContent where
  location : Option String
  format : Option String
  master : Bool
  description : Option String
  authors : List CombineArchiveAuthor
  created : Option Int
  updated : Option Int
deriving DecidableEq

/-- Constructor of a content item (combine/data_model.py lines 110-127):
`self.authors = authors or []` normalizes an omitted/None author list to a
fresh empty list. -/
def CombineArchiveContent.init (location format : Option String)
    (master : Bool) (description : Option String)
    (authors : Option (List CombineArchiveAuthor))
    (created updated : Option Int) : CombineArchiveContent :=
  ⟨location, format, master, description, authors.getD [], created, updated⟩

/-- Tuple representation of a content item (combine/data_model.py lines
129-136): `(location, format, master, description, sorted author tuples,
created, updated)`. -/
abbrev ContentTup :=
  Lex (WithBot String × Lex (WithBot String × Lex (Bool ×
    Lex (WithBot String × Lex (List AuthorTup ×
      Lex (WithBot Int × WithBot Int))))))

def CombineArchiveContent.to_tuple (c : CombineArchiveContent) : ContentTup :=
  toLex (toWB c.location, toLex (toWB c.format, toLex (c.master,
    toLex (toWB c.description,
      toLex (pysorted (c.authors.map CombineArchiveAuthor.to_tuple),
        toLex (toWB c.created, toWB c.updated))))))

/-- Structural equality of content items
(combine/data_model.py lines 138-154). -/
def CombineArchiveContent.is_equal (c other : CombineArchiveContent) : Bool :=
  decide (c.location = other.location) &&
  decide (c.format = other.format) &&
  decide (c.master = other.master) &&
  decide (c.description = other.description) &&
  are_lists_equal CombineArchiveAuthor.is_equal c.authors other.authors &&
  decide (c.created = other.created) &&
  decide (c.updated = other.updated)

theorem content_is_equal_iff_tuple
    (a b : CombineArchiveContent) :
    a.is_equal b = true ↔ a.to_tuple = b.to_tuple := by
  simp only [CombineArchiveContent.is_equal, CombineArchiveContent.to_tuple, Bool.and_eq_true, decide_eq_true_iff,
    toLex_inj, Prod.mk.injEq, toWB_inj,
    are_lists_equal_iff_pysorted CombineArchiveAuthor.to_tuple
      CombineArchiveAuthor.is_equal author_is_equal_iff_tuple]
  tauto

/-- A COMBINE/OMEX archive (combine/data_model.py lines 25-94). -/
structure CombineArchive where
  contents : List CombineArchiveContent
  description : Option String
  authors : List CombineArchiveAuthor
  created : Option Int
  updated : Option Int
deriving DecidableEq

/-- Constructor of an archive (combine/data_model.py lines 36-49):
`contents or []` and `authors or []` normalize omitted/None list arguments
to fresh empty lists. -/
def CombineArchive.init (contents : Option (List CombineArchiveContent))
    (description : Option String)
    (authors : Option (List CombineArchiveAuthor))
    (created updated : Option Int) : CombineArchive :=
  ⟨contents.getD [], description, authors.getD [], created, updated⟩

/-- Resolves the master content of an archive
(combine/data_model.py lines 51-68): the loop collects the contents whose
`master` flag is set (a filter); zero matches return `None`, exactly one
returns it, and more than one raises `ValueError`. -/
def CombineArchive.get_master_content (a : CombineArchive) :
    Except String (Option CombineArchiveContent) :=
  match a.contents.filter (fun c => c.master) with
  | [] => .ok none
  | [c] => .ok (some c)
  | _ => .error "Multiple content items are marked as master"

/-- Tuple representation of an archive
(combine/data_model.py lines 70-78). -/
abbrev ArchiveTup :=
  List ContentTup × WithBot String × List AuthorTup × WithBot Int ×
    WithBot Int

def CombineArchive.to_tuple (a : CombineArchive) : ArchiveTup :=
  (pysorted (a.contents.map CombineArchiveContent.to_tuple),
   toWB a.description,
   pysorted (a.authors.map CombineArchiveAuthor.to_tuple),
   toWB a.created, toWB a.updated)

/-- Structural equality of archives (combine/data_model.py lines 80-94). -/
def CombineArchive.is_equal (a other : CombineArchive) : Bool :=
  are_lists_equal CombineArchiveContent.is_equal a.contents other.contents &&
  decide (a.description = other.description) &&
  are_lists_equal CombineArchiveAuthor.is_equal a.authors other.authors &&
  decide (a.created = other.created) &&
  decide (a.updated = other.updated)

theorem archive_is_equal_iff_tuple (a b : CombineArchive) :
    a.is_equal b = true ↔ a.to_tuple = b.to_tuple := by
  simp only [CombineArchive.is_equal, CombineArchive.to_tuple, Bool.and_eq_true, decide_eq_true_iff,
    Prod.mk.injEq, toWB_inj,
    are_lists_equal_iff_pysorted CombineArchiveAuthor.to_tuple
      CombineArchiveAuthor.is_equal author_is_equal_iff_tuple,
    are_lists_equal_iff_pysorted CombineArchiveContent.to_tuple
      CombineArchiveContent.is_equal content_is_equal_iff_tuple]
  tauto

/-! ## SED-ML entity model (sedml/data_model.py) -/

/-- A changed parameter of an algorithm
(sedml/data_model.py lines 335-371). -/
structure AlgorithmParameterChange where
  kisao_id : Option String
  new_value : Option String
deriving DecidableEq

/-- Tuple representation of an algorithm parameter change:
`(kisao_id, new_value)` (sedml/data_model.py lines 352-358). -/
abbrev APCTup := Lex (WithBot String × WithBot String)

def AlgorithmParameterChange.to_tuple (c : AlgorithmParameterChange) :
    APCTup :=
  toLex (toWB c.kisao_id, toWB c.new_value)

/-- Structural equality of algorithm parameter changes
(sedml/data_model.py lines 360-371). -/
def AlgorithmParameterChange.is_equal
    (c other : AlgorithmParameterChange) : Bool :=
  decide (c.kisao_id = other.kisao_id) &&
  decide (c.new_value = other.new_value)

theorem apc_is_equal_iff_tuple
    (a b : AlgorithmParameterChange) :
    a.is_equal b = true ↔ a.to_tuple = b.to_tuple := by
  simp [AlgorithmParameterChange.is_equal, AlgorithmParameterChange.to_tuple, toLex_inj, Prod.ext_iff, toWB_inj]

/-- A simulation algorithm (sedml/data_model.py lines 295-332). -/
structure Algorithm where
  kisao_id : Option String
  changes : List AlgorithmParameterChange
deriving DecidableEq

/-- Constructor of an algorithm (sedml/data_model.py lines 303-310):
`self.changes = changes or []`. -/
def Algorithm.init (kisao_id : Option String)
    (changes : Option (List AlgorithmParameterChange)) : Algorithm :=
  ⟨kisao_id, changes.getD []⟩

/-- Tuple representation of an algorithm: `(kisao_id, none_sorted change
tuples)` (sedml/data_model.py lines 312-319).  Algorithm tuples are never
themselves sorted into a parent tuple, so a plain product suffices. -/
abbrev AlgorithmTup := WithBot String × List APCTup

def Algorithm.to_tuple (a : Algorithm) : AlgorithmTup :=
  (toWB a.kisao_id,
   pysorted (a.changes.map AlgorithmParameterChange.to_tuple))

/-- Structural equality of algorithms
(sedml/data_model.py lines 321-332). -/
def Algorithm.is_equal (a other : Algorithm) : Bool :=
  decide (a.kisao_id = other.kisao_id) &&
  are_lists_equal AlgorithmParameterChange.is_equal a.changes other.changes

theorem algorithm_is_equal_iff_tuple (a b : Algorithm) :
    a.is_equal b = true ↔ a.to_tuple = b.to_tuple := by
  simp only [Algorithm.is_equal, Algorithm.to_tuple, Bool.and_eq_true, decide_eq_true_iff,
    Prod.mk.injEq, toWB_inj,
    are_lists_equal_iff_pysorted AlgorithmParameterChange.to_tuple
      AlgorithmParameterChange.is_equal
      apc_is_equal_iff_tuple]

/-- A change of an attribute of a model
(sedml/data_model.py lines 466-501).  Its constructor passes
`target` to the `ModelChange` base constructor and never supplies `name`,
so the inherited `name` attribute is always `None`; the base-class `name`
comparison inside `is_equal` is therefore always true and the attribute is
omitted here. -/
structure ModelAttributeChange where
  target : Option String
  new_value : Option String
deriving DecidableEq

/-- Tuple representation of a model attribute change:
`(target, new_value)` (sedml/data_model.py lines 483-489); the inherited
`name` is not part of the tuple. -/
abbrev MACTup := Lex (WithBot String × WithBot String)

def ModelAttributeChange.to_tuple (c : ModelAttributeChange) : MACTup :=
  toLex (toWB c.target, toWB c.new_value)

/-- Structural equality of model attribute changes
(sedml/data_model.py lines 452-463 and 491-501). -/
def ModelAttributeChange.is_equal (c other : ModelAttributeChange) : Bool :=
  decide (c.target = other.target) &&
  decide (c.new_value = other.new_value)

theorem mac_is_equal_iff_tuple
    (a b : ModelAttributeChange) :
    a.is_equal b = true ↔ a.to_tuple = b.to_tuple := by
  simp [ModelAttributeChange.is_equal, ModelAttributeChange.to_tuple, toLex_inj, Prod.ext_iff, toWB_inj]

/-- A model (sedml/data_model.py lines 374-423).  `source` is mutated in
place by the executor (path resolution and temporary-file redirection), a
documented side effect. -/
structure Model where
  id : Option String
  name : Option String
  source : Option String
  language : Option String
  changes : List ModelAttributeChange
deriving DecidableEq

/-- Constructor of a model (sedml/data_model.py lines 385-398):
`self.changes = changes or []`. -/
def Model.init (id name source language : Option String)
    (changes : Option (List ModelAttributeChange)) : Model :=
  ⟨id, name, source, language, changes.getD []⟩

/-- Tuple representation of a model (sedml/data_model.py lines 400-407). -/
abbrev ModelTup :=
  WithBot String × WithBot String × WithBot String × WithBot String ×
    List MACTup

def Model.to_tuple (m : Model) : ModelTup :=
  (toWB m.id, toWB m.name, toWB m.source, toWB m.language,
   pysorted (m.changes.map ModelAttributeChange.to_tuple))

/-- Structural equality of models (sedml/data_model.py lines 409-423). -/
def Model.is_equal (m other : Model) : Bool :=
  decide (m.id = other.id) &&
  decide (m.name = other.name) &&
  decide (m.source = other.source) &&
  decide (m.language = other.language) &&
  are_lists_equal ModelAttributeChange.is_equal m.changes other.changes

theorem model_is_equal_iff_tuple (a b : Model) :
    a.is_equal b = true ↔ a.to_tuple = b.to_tuple := by
  simp only [Model.is_equal, Model.to_tuple, Bool.and_eq_true, decide_eq_true_iff,
    Prod.mk.injEq, toWB_inj,
    are_lists_equal_iff_pysorted ModelAttributeChange.to_tuple
      ModelAttributeChange.is_equal mac_is_equal_iff_tuple]
  tauto

/-- A simulation (sedml/data_model.py lines 134-292): the abstract
`Simulation` base class with its three concrete variants
`SteadyStateSimulation`, `OneStepSimulation` and
`UniformTimeCourseSimulation`.  Float-valued fields are modelled as `Rat`;
`number_of_points` is an int. -/
inductive Simulation where
  | steadyState (id name : Option String) (algorithm : Option Algorithm)
  | oneStep (id name : Option String) (algorithm : Option Algorithm)
      (step : Option Rat)
  | uniformTimeCourse (id name : Option String)
      (algorithm : Option Algorithm)
      (initial_time output_start_time output_end_time : Option Rat)
      (number_of_points : Option Int)
deriving DecidableEq

/-- Tuple representations of the three simulation variants
(sedml/data_model.py lines 188-194, 218-224, 270-277): Python tuples of
three different lengths, hence three constructors. -/
inductive SimTup where
  | steady (i n : WithBot String) (a : Option AlgorithmTup)
  | oneStep (i n : WithBot String) (a : Option AlgorithmTup)
      (s : WithBot Rat)
  | utc (i n : WithBot String) (a : Option AlgorithmTup)
      (t0 ts te : WithBot Rat) (np : WithBot Int)
deriving DecidableEq

def Simulation.to_tuple : Simulation → SimTup
  | .steadyState i n a => .steady (toWB i) (toWB n) (a.map Algorithm.to_tuple)
  | .oneStep i n a s =>
      .oneStep (toWB i) (toWB n) (a.map Algorithm.to_tuple) (toWB s)
  | .uniformTimeCourse i n a t0 ts te np =>
      .utc (toWB i) (toWB n) (a.map Algorithm.to_tuple) (toWB t0) (toWB ts)
        (toWB te) (toWB np)

/-- Structural equality of simulations (sedml/data_model.py lines 163-176,
226-236, 279-292): the base class checks runtime class, `id`, `name` and
the None-safe `algorithm`; each subclass conjoins its own scalar fields;
distinct variants compare unequal via the class check. -/
def Simulation.is_equal : Simulation → Simulation → Bool
  | .steadyState i n a, .steadyState i' n' a' =>
      decide (i = i') && decide (n = n') &&
      optIsEqual Algorithm.is_equal a a'
  | .oneStep i n a s, .oneStep i' n' a' s' =>
      decide (i = i') && decide (n = n') &&
      optIsEqual Algorithm.is_equal a a' && decide (s = s')
  | .uniformTimeCourse i n a t0 ts te np,
    .uniformTimeCourse i' n' a' t0' ts' te' np' =>
      decide (i = i') && decide (n = n') &&
      optIsEqual Algorithm.is_equal a a' && decide (t0 = t0') &&
      decide (ts = ts') && decide (te = te') && decide (np = np')
  | _, _ => false

theorem simulation_is_equal_iff_tuple (a b : Simulation) :
    a.is_equal b = true ↔ a.to_tuple = b.to_tuple := by
  cases a <;> cases b <;>
    simp [Simulation.is_equal, Simulation.to_tuple, toWB_inj, Prod.ext_iff,
      optIsEqual_iff Algorithm.to_tuple Algorithm.is_equal
        algorithm_is_equal_iff_tuple] <;>
    tauto

/-- A concrete `Task` (sedml/data_model.py lines 544-589): binds one model
to one simulation. -/
structure TaskData where
  id : Option String
  name : Option String
  model : Option Model
  simulation : Option Simulation
deriving DecidableEq

/-- Tuple representation of a task (sedml/data_model.py lines 566-574). -/
abbrev TaskTup :=
  WithBot String × WithBot String × Option ModelTup × Option SimTup

def TaskData.to_tuple (t : TaskData) : TaskTup :=
  (toWB t.id, toWB t.name, t.model.map Model.to_tuple,
   t.simulation.map Simulation.to_tuple)

/-- Structural equality of tasks (sedml/data_model.py lines 530-541 and
576-589). -/
def TaskData.is_equal (t other : TaskData) : Bool :=
  decide (t.id = other.id) && decide (t.name = other.name) &&
  optIsEqual Model.is_equal t.model other.model &&
  optIsEqual Simulation.is_equal t.simulation other.simulation

theorem task_is_equal_iff_tuple (a b : TaskData) :
    a.is_equal b = true ↔ a.to_tuple = b.to_tuple := by
  simp [TaskData.is_equal, TaskData.to_tuple, toWB_inj, Prod.ext_iff,
    optIsEqual_iff Model.to_tuple Model.is_equal model_is_equal_iff_tuple,
    optIsEqual_iff Simulation.to_tuple Simulation.is_equal
      simulation_is_equal_iff_tuple]
  tauto

/-- An `AbstractTask` (sedml/data_model.py lines 504-541): in the source
the only concrete subclass is `Task`; the executor must reject instances of
any other subclass with `NotImplementedError`, so those are represented by
an `otherSubclass` constructor recording the Python class name. -/
inductive AbstractTask where
  | task (t : TaskData)
  | otherSubclass (className : String) (id name : Option String)
deriving DecidableEq

def AbstractTask.id : AbstractTask → Option String
  | .task t => t.id
  | .otherSubclass _ i _ => i

/-- A model variable of a data generator
(sedml/data_model.py lines 647-704). -/
structure DataGeneratorVariable where
  id : Option String
  name : Option String
  target : Option String
  symbol : Option String
  task : Option AbstractTask
  model : Option Model
deriving DecidableEq

/-- A parameter of a data generator
(sedml/data_model.py lines 706-746). -/
structure DataGeneratorParameter where
  id : Option String
  name : Option String
  value : Option Rat
deriving DecidableEq

/-- A data generator (sedml/data_model.py lines 592-644). -/
structure DataGenerator where
  id : Option String
  name : Option String
  «variables» : List DataGeneratorVariable
  parameters : List DataGeneratorParameter
  math : Option String
deriving DecidableEq

/-- Constructor of a data generator (sedml/data_model.py lines 603-616):
`self.variables = variables or []` and
`self.parameters = parameters or []`. -/
def DataGenerator.init (id name : Option String)
    («variables» : Option (List DataGeneratorVariable))
    (parameters : Option (List DataGeneratorParameter))
    (math : Option String) : DataGenerator :=
  ⟨id, name, «variables».getD [], parameters.getD [], math⟩

/-- A data set in a report (sedml/data_model.py lines 866-913). -/
structure DataSet where
  id : Option String
  name : Option String
  label : Option String
  data_generator : Option DataGenerator
deriving DecidableEq

/-- The scale of a plot axis (sedml/data_model.py lines 1004-1007). -/
inductive AxisScale where
  | linear
  | log
deriving DecidableEq

/-- A curve in a 2D plot (sedml/data_model.py lines 1010-1068). -/
structure Curve where
  id : Option String
  name : Option String
  x_scale : Option AxisScale
  y_scale : Option AxisScale
  x_data_generator : Option DataGenerator
  y_data_generator : Option DataGenerator
deriving DecidableEq

/-- A surface in a 3D plot (sedml/data_model.py lines 1071-1142). -/
structure Surface where
  id : Option String
  name : Option String
  x_scale : Option AxisScale
  y_scale : Option AxisScale
  z_scale : Option AxisScale
  x_data_generator : Option DataGenerator
  y_data_generator : Option DataGenerator
  z_data_generator : Option DataGenerator
deriving DecidableEq

/-- An output (sedml/data_model.py lines 785-1001): the abstract `Output`
base class with concrete subclasses `Report`, `Plot2D` and `Plot3D`; the
executor must reject instances of any other subclass with
`NotImplementedError`, represented by `otherSubclass`. -/
inductive Output where
  | report (id name : Option String) (data_sets : List DataSet)
  | plot2d (id name : Option String) (curves : List Curve)
  | plot3d (id name : Option String) (surfaces : List Surface)
  | otherSubclass (className : String) (id name : Option String)
deriving DecidableEq

def Output.id : Output → Option String
  | .report i _ _ => i
  | .plot2d i _ _ => i
  | .plot3d i _ _ => i
  | .otherSubclass _ i _ => i

/-- Constructor of a report (sedml/data_model.py lines 834-842):
`self.data_sets = data_sets or []`. -/
def Report.init (id name : Option String)
    (data_sets : Option (List DataSet)) : Output :=
  .report id name (data_sets.getD [])

/-- Constructor of a 2D plot (sedml/data_model.py lines 925-934):
`self.curves = curves or []`. -/
def Plot2D.init (id name : Option String)
    (curves : Option (List Curve)) : Output :=
  .plot2d id name (curves.getD [])

/-- Constructor of a 3D plot (sedml/data_model.py lines 969-978):
`self.surfaces = surfaces or []`. -/
def Plot3D.init (id name : Option String)
    (surfaces : Option (List Surface)) : Output :=
  .plot3d id name (surfaces.getD [])

/-- Placeholder for `biosimulations.data_model.Metadata`, whose source is
not under src/ and which no verified claim inspects; documents carry it
opaquely. -/
structure Metadata where
deriving DecidableEq

/-- A SED-ML document (sedml/data_model.py lines 61-131). -/
structure SedDocument where
  level : Int
  version : Int
  models : List Model
  simulations : List Simulation
  tasks : List AbstractTask
  data_generators : List DataGenerator
  outputs : List Output
  metadata : Option Metadata
deriving DecidableEq

/-- Constructor of a SED-ML document (sedml/data_model.py lines 75-94):
every omitted/None list argument is normalized to a fresh empty list via
`x or []`. -/
def SedDocument.init (level version : Int)
    (models : Option (List Model))
    (simulations : Option (List Simulation))
    (tasks : Option (List AbstractTask))
    (data_generators : Option (List DataGenerator))
    (outputs : Option (List Output))
    (metadata : Option Metadata) : SedDocument :=
  ⟨level, version, models.getD [], simulations.getD [], tasks.getD [],
   data_generators.getD [], outputs.getD [], metadata⟩

/-! ## Math function table (sedml/data_model.py lines 749-782) -/

/-- The distinct Python function objects appearing as values of
`MATHEMATICAL_FUNCTIONS` (sedml/data_model.py lines 749-782), one
constructor per implementation bound in the source.  `mathLogNatural`
models Python's `math.log`, the natural logarithm, which the source binds
to both the name `ln` and the name `log`. -/
inductive PyMathFn where
  | rootFn
  | pyAbs
  | mathExp
  | mathLogNatural
  | mathFloor
  | mathCeil
  | mathFactorial
  | mathSin
  | mathCos
  | mathTan
  | mpmathSec
  | mpmathCsc
  | mpmathCot
  | mathSinh
  | mathCosh
  | mathTanh
  | mpmathSech
  | mpmathCsch
  | mpmathCoth
  | mathAsin
  | mathAcos
  | mathAtan
  | mpmathAsec
  | mpmathAcsc
  | mpmathAcot
  | mathAsinh
  | mathAcosh
  | mathAtanh
  | mpmathAsech
  | mpmathAcsch
  | mpmathAcoth
deriving DecidableEq

/-- The function-name table of the math evaluator, entry for entry as in
sedml/data_model.py lines 749-782 (a Python dict literal, here an
association list in the dict's insertion order). -/
def MATHEMATICAL_FUNCTIONS : List (String × PyMathFn) :=
  [("root", .rootFn),
   ("abs", .pyAbs),
   ("exp", .mathExp),
   ("ln", .mathLogNatural),
   ("log", .mathLogNatural),
   ("floor", .mathFloor),
   ("ceiling", .mathCeil),
   ("factorial", .mathFactorial),
   ("sin", .mathSin),
   ("cos", .mathCos),
   ("tan", .mathTan),
   ("sec", .mpmathSec),
   ("csc", .mpmathCsc),
   ("cot", .mpmathCot),
   ("sinh", .mathSinh),
   ("cosh", .mathCosh),
   ("tanh", .mathTanh),
   ("sech", .mpmathSech),
   ("csch", .mpmathCsch),
   ("coth", .mpmathCoth),
   ("arcsin", .mathAsin),
   ("arccos", .mathAcos),
   ("arctan", .mathAtan),
   ("arcsec", .mpmathAsec),
   ("arccsc", .mpmathAcsc),
   ("arccot", .mpmathAcot),
   ("arcsinh", .mathAsinh),
   ("arccosh", .mathAcosh),
   ("arctanh", .mathAtanh),
   ("arcsech", .mpmathAsech),
   ("arccsch", .mpmathAcsch),
   ("arccoth", .mpmathAcoth)]

/-- Dictionary lookup in the math function table
(`MATHEMATICAL_FUNCTIONS[name]`). -/
def mathFunForName (name : String) : Option PyMathFn :=
  (MATHEMATICAL_FUNCTIONS.find? (fun p => p.1 == name)).map (fun p => p.2)

/-- Result of evaluating the unary function expression `name(x)` under a
denotation `denote` of the Python function objects: `none` when the name is
not in the table (the evaluator's unsupported-function error), otherwise
the bound function applied to `x`. -/
def applyMathFn (denote : PyMathFn → Real → Real) (name : String)
    (x : Real) : Option Real :=
  (mathFunForName name).map (fun f => denote f x)

/-! ## Cross-class dynamic view for the equality discipline

In Python, `is_equal` takes an arbitrary object and begins with
`self.__class__ == other.__class__`, while `to_tuple` returns untyped
tuples, so tuple projections of entities of different classes can be
compared (and can collide).  `PyEntity` models this dynamic view for the
pair of classes `AlgorithmParameterChange` and `CombineArchiveAuthor`,
whose tuple projections are both pairs of optional strings. -/

inductive PyEntity where
  | apc (x : AlgorithmParameterChange)
  | author (x : CombineArchiveAuthor)
deriving DecidableEq

/-- Dynamic dispatch of `is_equal`: the class check
`self.__class__ == other.__class__` fails across the two classes. -/
def PyEntity.is_equal : PyEntity → PyEntity → Bool
  | .apc x, .apc y => x.is_equal y
  | .author x, .author y => x.is_equal y
  | _, _ => false

/-- Dynamic dispatch of `to_tuple`; both classes project to a pair of
optional strings (`APCTup = AuthorTup` definitionally). -/
def PyEntity.to_tuple : PyEntity → APCTup
  | .apc x => x.to_tuple
  | .author x => x.to_tuple

/-! ## SED document executor (sedml/exec.py, `exec_doc`)

The executor's boundary collaborators are parameters: the task-executor
callback and the data-generator evaluator (`calc_data_generator_results`,
sedml/utils.py, not under src/).  File-system effects are reduced to the
bookkeeping the spec talks about: which temporary model files exist
(`FsState`) and which report-writer invocations happened (`writes`).
Result arrays are opaque values carrying the `shape` the executor
inspects. -/

/-- A numpy result array, reduced to what the executor inspects: its
`shape`; `tag` keeps distinct arrays of one shape distinguishable. -/
structure NdArray where
  shape : List Nat
  tag : Nat
deriving DecidableEq

/-- Accumulated `variable_results` dictionary: association list with the
most recent binding first (Python dict assignment overwrites, and lookups
below return the first match). -/
abbrev VariableResults := List (Option String × NdArray)

/-- The injected task-executor callback
(sedml/exec.py lines 38-51 and 111): returns the Python dict of results,
in which a requested variable id may be absent or bound to `None`. -/
abbrev TaskExecutor :=
  TaskData → List DataGeneratorVariable →
    List (Option String × Option NdArray)

/-- The injected data-generator evaluator, standing for
`calc_data_generator_results` (sedml/utils.py, not under src/; spec §4.2):
it may raise (modelled by `Except String`). -/
abbrev CalcFn := DataGenerator → VariableResults → Except String NdArray

/-- Dictionary lookup, first (= most recent) binding wins. -/
def pyDictGet {α : Type} (d : List (Option String × α)) (k : Option String) :
    Option α :=
  match d.find? (fun p => decide (p.1 = k)) with
  | none => none
  | some p => some p.2

/-- Python `d.get(k, None)` on a dict whose values may themselves be
`None`: a missing key and a `None` value are indistinguishable, exactly as
in `task_variable_results.get(var.id, None)` (sedml/exec.py line 114). -/
def pyDictGetFlat (d : List (Option String × Option NdArray))
    (k : Option String) : Option NdArray :=
  match d.find? (fun p => decide (p.1 = k)) with
  | none => none
  | some p => p.2

/-- Python `str(x)` on an optional string (used by `'...'.format(...)`):
`None` prints as "None". -/
def pyStrOpt : Option String → String
  | none => "None"
  | some s => s

/-- The fatal errors `exec_doc` can raise, one constructor per `raise`
site (plus the crashes Python itself would raise on malformed input, and
errors propagating from the evaluator collaborator). -/
inductive ExecError where
  | missingVariable (varId : Option String) (taskId : Option String)
  | unsupportedTask (className : String)
  | shapeMismatch (reportId : Option String)
  | unsupportedOutput (className : String)
  | keyError (key : Option String)
  | attributeError (what : String)
  | typeError (what : String)
  | collaboratorError (msg : String)
deriving DecidableEq

/-- The message text of each executor error, as formatted by the source
(sedml/exec.py lines 116, 119, 141, 167). -/
def ExecError.message : ExecError → String
  | .missingVariable v t =>
      "Variable " ++ pyStrOpt v ++ " must be generated for task " ++
        pyStrOpt t
  | .unsupportedTask c => "Tasks of type " ++ c ++ " are not supported"
  | .shapeMismatch r =>
      "Data generators for report " ++ pyStrOpt r ++
        " must have consistent shapes"
  | .unsupportedOutput c => "Outputs of type " ++ c ++ " are not supported"
  | .keyError k => "KeyError: " ++ pyStrOpt k
  | .attributeError w => "AttributeError: " ++ w
  | .typeError w => "TypeError: " ++ w
  | .collaboratorError m => m

/-- The warnings `exec_doc` can emit (sedml/exec.py lines 143-145 and
156-164): duplicate data-set labels (`IllogicalSedmlWarning`) and skipped
plot outputs (`SedmlFeatureNotSupportedWarning`). -/
inductive ExecWarning where
  | illogicalSedml (msg : String)
  | featureNotSupported (outputId : Option String) (className : String)
deriving DecidableEq

/-- Modelled from the spec: `get_variables_for_task` (sedml/utils.py, not
under src/) computes "the set of `Variable`s any `DataGenerator` in the
document requires from that task" (spec §4.3): the variables of all data
generators whose bound task is the given task (matched by id). -/
def get_variables_for_task (doc : SedDocument) (t : TaskData) :
    List DataGeneratorVariable :=
  (doc.data_generators.map (fun dg => dg.«variables»)).flatten.filter
    (fun v =>
      match v.task with
      | some tk => decide (tk.id = t.id)
      | none => false)

/-- Records one task's results into `variable_results`
(sedml/exec.py lines 113-116): for each requested variable, a missing or
`None` entry in the callback's dict raises
`ValueError('Variable {} must be generated for task {}')`. -/
def execVars (taskId : Option String)
    (m : List (Option String × Option NdArray)) :
    List DataGeneratorVariable → VariableResults →
      Except ExecError VariableResults
  | [], acc => .ok acc
  | v :: vs, acc =>
    match pyDictGetFlat m v.id with
    | none => .error (.missingVariable v.id taskId)
    | some arr => execVars taskId m vs ((v.id, arr) :: acc)

/-- Outcome of the task-execution loop: the accumulated variable results
(or the first error) together with the trace of task ids for which the
callback was invoked, in invocation order. -/
structure TaskExecOutcome where
  res : Except ExecError VariableResults
  trace : List (Option String)

/-- The task-execution loop (sedml/exec.py lines 104-119) over an already
sorted task list: a concrete `Task` invokes the callback once; any other
`AbstractTask` subclass raises `NotImplementedError` and aborts. -/
def execTasksGo (doc : SedDocument) (task_executer : TaskExecutor) :
    List AbstractTask → VariableResults → List (Option String) →
      TaskExecOutcome
  | [], acc, tr => ⟨.ok acc, tr.reverse⟩
  | .task t :: rest, acc, tr =>
    let task_vars := get_variables_for_task doc t
    let m := task_executer t task_vars
    match execVars t.id m task_vars acc with
    | .error e => ⟨.error e, (t.id :: tr).reverse⟩
    | .ok acc' => execTasksGo doc task_executer rest acc' (t.id :: tr)
  | .otherSubclass c _ _ :: _, _, tr =>
    ⟨.error (.unsupportedTask c), tr.reverse⟩

/-- The sort key comparison of `doc.tasks.sort(key=lambda task: task.id)`
(sedml/exec.py line 99).  Task ids are strings; a `None` id (on which
CPython's sort would fail to compare mixed types) is ordered first, the
library's convention for `None`. -/
def taskIdLe (a b : AbstractTask) : Bool :=
  decide (toWB a.id ≤ toWB b.id)

/-- The task list after `doc.tasks.sort(key=lambda task: task.id)`
(sedml/exec.py line 99); `mergeSort` is stable, like Python's sort. -/
def sortedTasks (ts : List AbstractTask) : List AbstractTask :=
  ts.mergeSort taskIdLe

/-- The data-generator loop (sedml/exec.py lines 122-124): evaluates every
data generator via the collaborator, keyed by data-generator id (most
recent binding first). -/
def calcDataGensGo (calcFn : CalcFn) (varRes : VariableResults) :
    List DataGenerator → List (Option String × NdArray) →
      Except ExecError (List (Option String × NdArray))
  | [], acc => .ok acc
  | dg :: dgs, acc =>
    match calcFn dg varRes with
    | .error msg => .error (.collaboratorError msg)
    | .ok arr => calcDataGensGo calcFn varRes dgs ((dg.id, arr) :: acc)

/-- The shaped table of one report: dataset labels as the index, one row
per data set (the `pandas.DataFrame(numpy.array(...), index=...)` of
sedml/exec.py line 147). -/
structure ReportTable where
  index : List (Option String)
  rows : List NdArray
deriving DecidableEq

/-- The per-data-set loop of a report (sedml/exec.py lines 134-138):
collects `(label, data_gen_results[data_set.data_generator.id])` pairs; a
`None` data generator or a missing key crashes as in Python. -/
def gatherDataSets (dgr : List (Option String × NdArray)) :
    List DataSet → Except ExecError (List (Option String × NdArray))
  | [] => .ok []
  | ds :: rest =>
    match ds.data_generator with
    | none => .error (.attributeError "NoneType object has no attribute id")
    | some dg =>
      match pyDictGet dgr dg.id with
      | none => .error (.keyError dg.id)
      | some arr =>
        match gatherDataSets dgr rest with
        | .error e => .error e
        | .ok tail => .ok ((ds.label, arr) :: tail)

/-- The duplicate-label warning text (sedml/exec.py line 144). -/
def dupLabelWarningMsg : String :=
  "To facilitate machine interpretation, data sets should have unique ids"

/-- Shapes one `Report` output (sedml/exec.py lines 129-148): gathers the
data sets, raises `ValueError('Data generators for report {} must have
consistent shapes')` when more than one distinct array shape occurs, and
emits the duplicate-label warning when labels repeat. -/
def genReport (dgr : List (Option String × NdArray)) (rid : Option String)
    (dss : List DataSet) : Except ExecError (ReportTable × List ExecWarning) :=
  match gatherDataSets dgr dss with
  | .error e => .error e
  | .ok pairs =>
    let labels := pairs.map (fun p => p.1)
    let results := pairs.map (fun p => p.2)
    if 1 < ((results.map (fun a => a.shape)).dedup).length then
      .error (.shapeMismatch rid)
    else
      .ok (⟨labels, results⟩,
        if labels.dedup.length < labels.length then
          [.illogicalSedml dupLabelWarningMsg]
        else [])

/-- Outcome of the output loop: the `report_results` dictionary (or first
error), the warnings emitted so far, and the report-writer invocations
(one per requested format and written report, recorded as
`(format, report id)`; path construction is elided). -/
structure OutputsOutcome where
  res : Except ExecError (List (Option String × ReportTable))
  warnings : List ExecWarning
  writes : List (String × Option String)

/-- The output loop (sedml/exec.py lines 128-167): reports are shaped and
written; `Plot2D`/`Plot3D` outputs are skipped with a
feature-not-supported warning; any other `Output` subclass raises
`NotImplementedError`. -/
def genOutputsGo (dgr : List (Option String × NdArray))
    (report_formats : List String) :
    List Output → List (Option String × ReportTable) → List ExecWarning →
      List (String × Option String) → OutputsOutcome
  | [], acc, ws, wr => ⟨.ok acc, ws, wr⟩
  | .report rid _ dss :: rest, acc, ws, wr =>
    match genReport dgr rid dss with
    | .error e => ⟨.error e, ws, wr⟩
    | .ok (tbl, ws') =>
      genOutputsGo dgr report_formats rest (acc ++ [(rid, tbl)]) (ws ++ ws')
        (wr ++ report_formats.map (fun f => (f, rid)))
  | .plot2d pid _ _ :: rest, acc, ws, wr =>
    genOutputsGo dgr report_formats rest acc
      (ws ++ [.featureNotSupported pid "Plot2D"]) wr
  | .plot3d pid _ _ :: rest, acc, ws, wr =>
    genOutputsGo dgr report_formats rest acc
      (ws ++ [.featureNotSupported pid "Plot3D"]) wr
  | .otherSubclass c _ _ :: _, _, ws, wr =>
    ⟨.error (.unsupportedOutput c), ws, wr⟩

/-- File-system state visible to the executor: the supply of fresh
temporary file names (`tempfile.mkstemp`) and the temporary files
currently existing on disk. -/
structure FsState where
  nextTemp : Nat
  tempsLive : List Nat
deriving DecidableEq

/-- Model of POSIX `os.path.isabs`: the path begins with a slash. -/
def isAbsPath (s : String) : Bool := decide (s.data.head? = some '/')

/-- Model of `os.path.join` for the two-argument uses in exec.py. -/
def joinPath (a b : String) : String :=
  if isAbsPath b then b else a ++ "/" ++ b

/-- The file name of the n-th temporary modified model
(`tempfile.mkstemp(suffix='.xml')`). -/
def tempPath (n : Nat) : String := "/tmp/model_" ++ toString n ++ ".xml"

/-- The model-change loop (sedml/exec.py lines 80-95): resolves each
relative `model.source` against the working directory (in-place mutation of
the working copy), and, when XML model changes are requested and present,
creates a temporary modified model file, redirects `model.source` to it and
records it in `modified_model_filenames`.  `apply_changes_to_xml_model`
(sedml/utils.py, not under src/) only writes that file's contents and is
elided.  A `None` source crashes `os.path.isabs` as in Python. -/
def applyChangesGo (apply_xml_model_changes : Bool) (workingDir : String) :
    List Model → FsState → FsState × Except ExecError (List Model × List Nat)
  | [], st => (st, .ok ([], []))
  | m :: ms, st =>
    match m.source with
    | none => (st, .error (.typeError "os.path.isabs expects str, got None"))
    | some src =>
      let resolved := if isAbsPath src then src else joinPath workingDir src
      if apply_xml_model_changes && !m.changes.isEmpty then
        let n := st.nextTemp
        let m' := { m with source := some (tempPath n) }
        match applyChangesGo apply_xml_model_changes workingDir ms
            ⟨n + 1, st.tempsLive ++ [n]⟩ with
        | (st', .error e) => (st', .error e)
        | (st', .ok (ms', files)) => (st', .ok (m' :: ms', n :: files))
      else
        let m' := { m with source := some resolved }
        match applyChangesGo apply_xml_model_changes workingDir ms st with
        | (st', .error e) => (st', .error e)
        | (st', .ok (ms', files)) => (st', .ok (m' :: ms', files))

/-- The cleanup loop (sedml/exec.py lines 169-171): removes each recorded
temporary modified model file. -/
def cleanupTemps (st : FsState) (files : List Nat) : FsState :=
  ⟨st.nextTemp, files.foldl (fun l n => l.erase n) st.tempsLive⟩

/-- Result of `exec_doc`: the returned pair (report results and variable
results) or the propagated error, together with the callback invocation
trace, the emitted warnings, the report-writer invocations, and the final
file-system state. -/
structure ExecOutcome where
  res : Except ExecError ((List (Option String × ReportTable)) ×
    VariableResults)
  trace : List (Option String)
  warnings : List ExecWarning
  writes : List (String × Option String)
  fs : FsState

/-- The executor `exec_doc` (sedml/exec.py lines 30-173) for an in-memory
document.  Line 71 deep-copies the document, so all subsequent mutation
acts on the working copy `doc2`; at value level the copy starts as the
same document value (the aliasing consequences of the deep copy are proved
on the explicit heap model below).  Status printing, default format
resolution from config, and output paths are elided; plot formats are
unused by the source's output loop. -/
def exec_doc (docIn : SedDocument) (workingDir : String)
    (task_executer : TaskExecutor) (calcFn : CalcFn)
    (apply_xml_model_changes : Bool) (report_formats : List String)
    (st0 : FsState) : ExecOutcome :=
  match applyChangesGo apply_xml_model_changes workingDir docIn.models st0 with
  | (st1, .error e) => ⟨.error e, [], [], [], st1⟩
  | (st1, .ok (models', files)) =>
    let doc2 : SedDocument :=
      { docIn with models := models', tasks := sortedTasks docIn.tasks }
    let t := execTasksGo doc2 task_executer doc2.tasks [] []
    match t.res with
    | .error e => ⟨.error e, t.trace, [], [], st1⟩
    | .ok varRes =>
      match calcDataGensGo calcFn varRes doc2.data_generators [] with
      | .error e => ⟨.error e, t.trace, [], [], st1⟩
      | .ok dgr =>
        let o := genOutputsGo dgr report_formats doc2.outputs [] [] []
        match o.res with
        | .error e => ⟨.error e, t.trace, o.warnings, o.writes, st1⟩
        | .ok reports =>
          ⟨.ok (reports, varRes), t.trace, o.warnings, o.writes,
           cleanupTemps st1 files⟩

/-! ## Heap model of the mutation prefix of `exec_doc` (claim about the
caller's document)

All statements in `exec_doc` that write to an object reachable from the
document are in lines 67-99: `doc = copy.deepcopy(doc)` (line 71, for an
in-memory document), the `model.source` assignments (lines 83 and 93) and
`doc.tasks.sort(...)` (line 99); the later stages only read.  To reason
about what the caller's own objects look like after the call, this prefix
is re-traced over an explicit object heap in which `SedDocument` and
`Model` instances are cells addressed by natural numbers. -/

/-- The heap cell of a `SedDocument` object: its `models` attribute holds
references to `Model` cells, and its `tasks` attribute holds the task list
whose order line 99 mutates.  The remaining attributes are never written
by `exec_doc` and are omitted from the cell. -/
structure DocObj where
  modelRefs : List Nat
  tasks : List AbstractTask
deriving DecidableEq

/-- An object heap: `Model` cells and `SedDocument` cells. -/
structure PyHeap where
  modelCells : List Model
  docCells : List DocObj
deriving DecidableEq

def defaultModel : Model := ⟨none, none, none, none, []⟩

def defaultDocObj : DocObj := ⟨[], []⟩

def heapGetModel (h : PyHeap) (r : Nat) : Model :=
  h.modelCells.getD r defaultModel

/-- The write `model.source = ...` on the model cell `r`. -/
def heapSetModelSource (h : PyHeap) (r : Nat) (s : Option String) : PyHeap :=
  { h with
    modelCells := h.modelCells.set r { heapGetModel h r with source := s } }

/-- Line 71, `doc = copy.deepcopy(doc)`: allocates fresh `Model` cells
holding copies of the document's models and a fresh `SedDocument` cell
referring to them, and returns the new document reference. -/
def heapDeepCopyDoc (h : PyHeap) (d : Nat) : PyHeap × Nat :=
  let dobj := h.docCells.getD d defaultDocObj
  let base := h.modelCells.length
  let copied := dobj.modelRefs.map (fun r => heapGetModel h r)
  let newRefs := (List.range copied.length).map (fun i => base + i)
  ({ modelCells := h.modelCells ++ copied,
     docCells := h.docCells ++ [⟨newRefs, dobj.tasks⟩] },
   h.docCells.length)

/-- The model-change loop of lines 80-95 acting on model cells by
reference: the same control flow as `applyChangesGo`, with each
`model.source` assignment performed as a heap write.  On the `TypeError`
path the loop stops with the writes made so far persisted. -/
def applyChangesHeapGo (apply_xml_model_changes : Bool) (wd : String) :
    List Nat → PyHeap → FsState → PyHeap × FsState
  | [], h, st => (h, st)
  | r :: rs, h, st =>
    match (heapGetModel h r).source with
    | none => (h, st)
    | some src =>
      if apply_xml_model_changes && !(heapGetModel h r).changes.isEmpty then
        applyChangesHeapGo apply_xml_model_changes wd rs
          (heapSetModelSource h r (some (tempPath st.nextTemp)))
          ⟨st.nextTemp + 1, st.tempsLive ++ [st.nextTemp]⟩
      else
        applyChangesHeapGo apply_xml_model_changes wd rs
          (heapSetModelSource h r
            (some (if isAbsPath src then src else joinPath wd src))) st

/-- Line 99, `doc.tasks.sort(key=lambda task: task.id)`: an in-place write
of the sorted task list into the document cell `d`. -/
def heapSortTasks (h : PyHeap) (d : Nat) : PyHeap :=
  { h with
    docCells := h.docCells.set d
      (let o := h.docCells.getD d defaultDocObj
       ⟨o.modelRefs, sortedTasks o.tasks⟩) }

/-- The whole mutation prefix of `exec_doc` (lines 67-99) on the heap:
deep-copy the document at `d`, run the model-change loop over the models of
the copy, and sort the copy's task list.  Returns the heap, the working
copy's reference, and the file-system state. -/
def exec_doc_prefixHeap (apply_xml_model_changes : Bool) (wd : String)
    (h : PyHeap) (d : Nat) (st : FsState) : PyHeap × Nat × FsState :=
  let p := heapDeepCopyDoc h d
  let refs := (p.1.docCells.getD p.2 defaultDocObj).modelRefs
  let q := applyChangesHeapGo apply_xml_model_changes wd refs p.1 st
  (heapSortTasks q.1 p.2, p.2, q.2)

theorem heapSetModelSource_frame (h : PyHeap) (r j : Nat) (s : Option String)
    (hne : r ≠ j) :
    (heapSetModelSource h r s).modelCells[j]? = h.modelCells[j]? ∧
      (heapSetModelSource h r s).docCells = h.docCells := by
  constructor
  · exact List.getElem?_set_ne hne
  · rfl

theorem applyChangesHeapGo_frame (ax : Bool) (wd : String) :
    ∀ (rs : List Nat) (h : PyHeap) (st : FsState) (j : Nat),
      (∀ r ∈ rs, r ≠ j) →
      ((applyChangesHeapGo ax wd rs h st).1.modelCells[j]? =
        h.modelCells[j]?) ∧
      ((applyChangesHeapGo ax wd rs h st).1.docCells = h.docCells) := by
  intro rs
  induction rs with
  | nil => intro h st j _; exact ⟨rfl, rfl⟩
  | cons r rs ih =>
    intro h st j hj
    have hr : r ≠ j := hj r (by simp)
    have hrs : ∀ r' ∈ rs, r' ≠ j := fun r' hr' => hj r' (by simp [hr'])
    cases hsrc : (heapGetModel h r).source with
    | none => simp [applyChangesHeapGo, hsrc]
    | some src =>
      by_cases hb : (ax && !(heapGetModel h r).changes.isEmpty) = true
      · simp only [applyChangesHeapGo, hsrc, hb, if_true]
        have h1 := heapSetModelSource_frame h r j (some (tempPath st.nextTemp)) hr
        have h2 := ih (heapSetModelSource h r (some (tempPath st.nextTemp)))
          ⟨st.nextTemp + 1, st.tempsLive ++ [st.nextTemp]⟩ j hrs
        exact ⟨h2.1.trans h1.1, h2.2.trans h1.2⟩
      · simp only [applyChangesHeapGo, hsrc, hb, if_false]
        have h1 := heapSetModelSource_frame h r j
          (some (if isAbsPath src then src else joinPath wd src)) hr
        have h2 := ih (heapSetModelSource h r
          (some (if isAbsPath src then src else joinPath wd src))) st j hrs
        exact ⟨h2.1.trans h1.1, h2.2.trans h1.2⟩

/-! ## Claim theorems -/

/-- Claim C5: for every CombineArchive, `get_master_content` returns `None`
when zero contents are master-flagged, returns the unique master-flagged
content when exactly one is, and raises a `ValueError` when two or more
are.  The operation is pure by construction: it only reads
`a.contents` (combine/data_model.py lines 51-68). -/
theorem get_master_content_trichotomy (a : CombineArchive) :
    (a.contents.countP (fun c => c.master) = 0 →
      a.get_master_content = .ok none) ∧
    (∀ c, a.contents.countP (fun c => c.master) = 1 → c ∈ a.contents →
      c.master = true → a.get_master_content = .ok (some c)) ∧
    (2 ≤ a.contents.countP (fun c => c.master) →
      a.get_master_content =
        .error "Multiple content items are marked as master") := by
  have hcount : a.contents.countP (fun c => c.master) =
      (a.contents.filter (fun c => c.master)).length :=
    List.countP_eq_length_filter _ _
  refine ⟨?_, ?_, ?_⟩
  · intro h0
    rw [hcount] at h0
    have hnil : a.contents.filter (fun c => c.master) = [] :=
      List.length_eq_zero.mp h0
    simp only [CombineArchive.get_master_content, hnil]
  · intro c h1 hmem hmaster
    rw [hcount] at h1
    obtain ⟨c', hc'⟩ := List.length_eq_one.mp h1
    have hcmem : c ∈ a.contents.filter (fun x => x.master) :=
      List.mem_filter.mpr ⟨hmem, by simp [hmaster]⟩
    rw [hc'] at hcmem
    simp only [List.mem_singleton] at hcmem
    subst hcmem
    simp only [CombineArchive.get_master_content, hc']
  · intro h2
    rw [hcount] at h2
    cases hf : a.contents.filter (fun c => c.master) with
    | nil => rw [hf] at h2; simp at h2
    | cons c tl =>
      cases tl with
      | nil => rw [hf] at h2; simp at h2
      | cons c2 tl2 => simp only [CombineArchive.get_master_content, hf]

/-- Claim C10: every entity constructor normalizes an omitted/None
list-valued argument to an empty list, so list-valued attributes are never
`None` after construction, and the operations that iterate them are
well-defined on default-constructed entities (in particular
`get_master_content` on a default archive returns `None`, and `is_equal` /
`to_tuple` compute on it). -/
theorem constructors_normalize_list_arguments :
    (∀ c d au cr up, (CombineArchive.init c d au cr up).contents = c.getD []
      ∧ (CombineArchive.init c d au cr up).authors = au.getD []) ∧
    (∀ l f m d au cr up,
      (CombineArchiveContent.init l f m d au cr up).authors = au.getD []) ∧
    (∀ lv vs ms ss ts dgs os md,
      (SedDocument.init lv vs ms ss ts dgs os md).models = ms.getD [] ∧
      (SedDocument.init lv vs ms ss ts dgs os md).simulations = ss.getD [] ∧
      (SedDocument.init lv vs ms ss ts dgs os md).tasks = ts.getD [] ∧
      (SedDocument.init lv vs ms ss ts dgs os md).data_generators =
        dgs.getD [] ∧
      (SedDocument.init lv vs ms ss ts dgs os md).outputs = os.getD []) ∧
    (∀ i n v p m, (DataGenerator.init i n v p m).«variables» = v.getD [] ∧
      (DataGenerator.init i n v p m).parameters = p.getD []) ∧
    (∀ k ch, (Algorithm.init k ch).changes = ch.getD []) ∧
    (∀ i n s l ch, (Model.init i n s l ch).changes = ch.getD []) ∧
    (∀ i n dss, Report.init i n dss = Output.report i n (dss.getD [])) ∧
    (∀ i n cs, Plot2D.init i n cs = Output.plot2d i n (cs.getD [])) ∧
    (∀ i n srf, Plot3D.init i n srf = Output.plot3d i n (srf.getD [])) ∧
    (CombineArchive.init none none none none none).get_master_content =
      .ok none ∧
    (CombineArchive.init none none none none none).is_equal
      (CombineArchive.init none none none none none) = true ∧
    (CombineArchive.init none none none none none).to_tuple =
      ([], ⊥, [], ⊥, ⊥) := by
  refine ⟨fun _ _ _ _ _ => ⟨rfl, rfl⟩, fun _ _ _ _ _ _ _ => rfl,
    fun _ _ _ _ _ _ _ _ => ⟨rfl, rfl, rfl, rfl, rfl⟩,
    fun _ _ _ _ _ => ⟨rfl, rfl⟩, fun _ _ => rfl, fun _ _ _ _ _ => rfl,
    fun _ _ _ => rfl, fun _ _ _ => rfl, fun _ _ _ => rfl, rfl, rfl, ?_⟩
  simp [CombineArchive.init, CombineArchive.to_tuple, pysorted, toWB]

/-- Claim C9: in `MATHEMATICAL_FUNCTIONS` the names "log" and "ln" are
bound to the same function object, Python's `math.log` (the natural
logarithm), so under any denotation of the function objects, evaluating
`log(x)` and `ln(x)` gives identical results for every x
(sedml/data_model.py lines 752-754). -/
theorem log_ln_natural_log_alias :
    mathFunForName "log" = some PyMathFn.mathLogNatural ∧
    mathFunForName "ln" = some PyMathFn.mathLogNatural ∧
    mathFunForName "log" = mathFunForName "ln" ∧
    ∀ (denote : PyMathFn → Real → Real) (x : Real),
      applyMathFn denote "log" x = applyMathFn denote "ln" x := by
  refine ⟨by rfl, by rfl, by rfl, ?_⟩
  intro denote x
  rfl

/-- Claim C6 counterexample: the claim's cross-class direction fails.  The
`AlgorithmParameterChange` with `kisao_id='a', new_value='b'` and the
`CombineArchiveAuthor` with `given_name='b', family_name='a'` have equal
tuple projections (both `('a', 'b')`), yet `is_equal` is false because the
runtime classes differ. -/
theorem is_equal_tuple_cross_class_counterexample :
    PyEntity.to_tuple (.apc ⟨some "a", some "b"⟩) =
      PyEntity.to_tuple (.author ⟨some "b", some "a"⟩) ∧
    PyEntity.is_equal (.apc ⟨some "a", some "b"⟩)
      (.author ⟨some "b", some "a"⟩) = false :=
  ⟨rfl, rfl⟩

/-- Claim C6 (amended): restricted to two entities of the same class,
`is_equal` agrees with equality of `to_tuple` projections in both
directions; proved for the embedded COMBINE classes and the SED classes
whose tuple projections the sources under src/ fully determine. -/
theorem is_equal_iff_tuple_within_class :
    (∀ a b : CombineArchiveAuthor,
      a.is_equal b = true ↔ a.to_tuple = b.to_tuple) ∧
    (∀ a b : AlgorithmParameterChange,
      a.is_equal b = true ↔ a.to_tuple = b.to_tuple) ∧
    (∀ a b : Algorithm, a.is_equal b = true ↔ a.to_tuple = b.to_tuple) ∧
    (∀ a b : ModelAttributeChange,
      a.is_equal b = true ↔ a.to_tuple = b.to_tuple) ∧
    (∀ a b : Model, a.is_equal b = true ↔ a.to_tuple = b.to_tuple) ∧
    (∀ a b : Simulation, a.is_equal b = true ↔ a.to_tuple = b.to_tuple) ∧
    (∀ a b : TaskData, a.is_equal b = true ↔ a.to_tuple = b.to_tuple) ∧
    (∀ a b : CombineArchiveContent,
      a.is_equal b = true ↔ a.to_tuple = b.to_tuple) ∧
    (∀ a b : CombineArchive,
      a.is_equal b = true ↔ a.to_tuple = b.to_tuple) :=
  ⟨author_is_equal_iff_tuple,
   apc_is_equal_iff_tuple,
   algorithm_is_equal_iff_tuple,
   mac_is_equal_iff_tuple,
   model_is_equal_iff_tuple,
   simulation_is_equal_iff_tuple,
   task_is_equal_iff_tuple,
   content_is_equal_iff_tuple,
   archive_is_equal_iff_tuple⟩

/-- Claim C8: the caller's document object is unchanged by the mutation
prefix of `exec_doc` (and the later stages perform no writes to document
or model objects — see the heap-model comment).  Stated as a frame
property on the heap: every pre-existing document cell and model cell is
exactly as before the call; all mutation (source resolution, temporary
redirection, task-list sorting) hits only cells allocated by the deep copy
of line 71. -/
theorem exec_doc_preserves_caller_document (ax : Bool) (wd : String)
    (h : PyHeap) (d : Nat) (st : FsState) (i j : Nat)
    (hi : i < h.docCells.length) (hj : j < h.modelCells.length) :
    ((exec_doc_prefixHeap ax wd h d st).1.docCells[i]? = h.docCells[i]?) ∧
    ((exec_doc_prefixHeap ax wd h d st).1.modelCells[j]? =
      h.modelCells[j]?) := by
  have hcopy1 : (heapDeepCopyDoc h d).1.modelCells =
      h.modelCells ++
        ((h.docCells.getD d defaultDocObj).modelRefs.map
          (fun r => heapGetModel h r)) := rfl
  have hcopy2 : (heapDeepCopyDoc h d).1.docCells =
      h.docCells ++
        [⟨(List.range
            ((h.docCells.getD d defaultDocObj).modelRefs.map
              (fun r => heapGetModel h r)).length).map
            (fun k => h.modelCells.length + k),
          (h.docCells.getD d defaultDocObj).tasks⟩] := rfl
  have hcopy3 : (heapDeepCopyDoc h d).2 = h.docCells.length := rfl
  have hrefs : ((heapDeepCopyDoc h d).1.docCells.getD
      (heapDeepCopyDoc h d).2 defaultDocObj).modelRefs =
      (List.range
        ((h.docCells.getD d defaultDocObj).modelRefs.map
          (fun r => heapGetModel h r)).length).map
        (fun k => h.modelCells.length + k) := by
    have : (heapDeepCopyDoc h d).1.docCells.getD
        (heapDeepCopyDoc h d).2 defaultDocObj =
        ⟨(List.range
            ((h.docCells.getD d defaultDocObj).modelRefs.map
              (fun r => heapGetModel h r)).length).map
            (fun k => h.modelCells.length + k),
          (h.docCells.getD d defaultDocObj).tasks⟩ := by
      rw [hcopy2, hcopy3]
      simp [List.getD, List.getElem?_concat_length]
    rw [this]
  have hrj : ∀ r ∈ ((heapDeepCopyDoc h d).1.docCells.getD
      (heapDeepCopyDoc h d).2 defaultDocObj).modelRefs, r ≠ j := by
    rw [hrefs]
    intro r hr
    obtain ⟨k, _, rfl⟩ := List.mem_map.mp hr
    omega
  have hframe := applyChangesHeapGo_frame ax wd
    ((heapDeepCopyDoc h d).1.docCells.getD
      (heapDeepCopyDoc h d).2 defaultDocObj).modelRefs
    (heapDeepCopyDoc h d).1 st j hrj
  constructor
  · show (heapSortTasks
        (applyChangesHeapGo ax wd _ (heapDeepCopyDoc h d).1 st).1
        (heapDeepCopyDoc h d).2).docCells[i]? = h.docCells[i]?
    have hsort : (heapSortTasks
        (applyChangesHeapGo ax wd
          ((heapDeepCopyDoc h d).1.docCells.getD
            (heapDeepCopyDoc h d).2 defaultDocObj).modelRefs
          (heapDeepCopyDoc h d).1 st).1
        (heapDeepCopyDoc h d).2).docCells[i]? =
        (applyChangesHeapGo ax wd
          ((heapDeepCopyDoc h d).1.docCells.getD
            (heapDeepCopyDoc h d).2 defaultDocObj).modelRefs
          (heapDeepCopyDoc h d).1 st).1.docCells[i]? := by
      apply List.getElem?_set_ne
      rw [hcopy3]
      omega
    rw [hsort, hframe.2, hcopy2]
    rw [List.getElem?_append_left hi]
  · show (heapSortTasks
        (applyChangesHeapGo ax wd _ (heapDeepCopyDoc h d).1 st).1
        (heapDeepCopyDoc h d).2).modelCells[j]? = h.modelCells[j]?
    have : (heapSortTasks
        (applyChangesHeapGo ax wd
          ((heapDeepCopyDoc h d).1.docCells.getD
            (heapDeepCopyDoc h d).2 defaultDocObj).modelRefs
          (heapDeepCopyDoc h d).1 st).1
        (heapDeepCopyDoc h d).2).modelCells =
        (applyChangesHeapGo ax wd
          ((heapDeepCopyDoc h d).1.docCells.getD
            (heapDeepCopyDoc h d).2 defaultDocObj).modelRefs
          (heapDeepCopyDoc h d).1 st).1.modelCells := rfl
    rw [this, hframe.1, hcopy1]
    rw [List.getElem?_append_left hj]

/-- Claim C8 witness: a concrete heap with one document (holding one model
and one task) run through the mutation prefix with XML changes enabled;
the caller's cells are untouched. -/
theorem exec_doc_preserves_caller_document_witness :
    ((exec_doc_prefixHeap true "/wd"
        ⟨[⟨some "m1", none, some "model.xml", none,
            [⟨some "/sbml/t", some "1"⟩]⟩],
          [⟨[0], [.task ⟨some "t1", none, none, none⟩]⟩]⟩
        0 ⟨0, []⟩).1.docCells[0]? =
      (⟨[⟨some "m1", none, some "model.xml", none,
            [⟨some "/sbml/t", some "1"⟩]⟩],
          [⟨[0], [.task ⟨some "t1", none, none, none⟩]⟩]⟩ :
        PyHeap).docCells[0]?) ∧
    ((exec_doc_prefixHeap true "/wd"
        ⟨[⟨some "m1", none, some "model.xml", none,
            [⟨some "/sbml/t", some "1"⟩]⟩],
          [⟨[0], [.task ⟨some "t1", none, none, none⟩]⟩]⟩
        0 ⟨0, []⟩).1.modelCells[0]? =
      (⟨[⟨some "m1", none, some "model.xml", none,
            [⟨some "/sbml/t", some "1"⟩]⟩],
          [⟨[0], [.task ⟨some "t1", none, none, none⟩]⟩]⟩ :
        PyHeap).modelCells[0]?) :=
  exec_doc_preserves_caller_document true "/wd" _ 0 ⟨0, []⟩ 0 0
    (by decide) (by decide)

/-- The task loop's invocation trace: the processed tasks form a prefix of
the (sorted) input list, the trace is exactly the ids of that prefix in
order, and a successful result means the whole list was processed. -/
theorem execTasksGo_trace (doc : SedDocument) (ex : TaskExecutor) :
    ∀ (ts : List AbstractTask) (acc : VariableResults)
      (tr : List (Option String)),
      ∃ pre rest, ts = pre ++ rest ∧
        (execTasksGo doc ex ts acc tr).trace =
          tr.reverse ++ pre.map AbstractTask.id ∧
        (∀ v, (execTasksGo doc ex ts acc tr).res = .ok v → rest = []) := by
  intro ts
  induction ts with
  | nil =>
    intro acc tr
    exact ⟨[], [], rfl, by simp [execTasksGo], fun _ _ => rfl⟩
  | cons t ts ih =>
    intro acc tr
    cases t with
    | task td =>
      cases hev : execVars td.id (ex td (get_variables_for_task doc td))
          (get_variables_for_task doc td) acc with
      | error e =>
        refine ⟨[.task td], ts, rfl, ?_, ?_⟩
        · simp [execTasksGo, hev, AbstractTask.id]
        · intro v hv
          simp [execTasksGo, hev] at hv
      | ok acc' =>
        obtain ⟨pre, rest, hsplit, htr, hok⟩ := ih acc' (td.id :: tr)
        refine ⟨.task td :: pre, rest, by rw [List.cons_append, ← hsplit], ?_, ?_⟩
        · have : (execTasksGo doc ex (.task td :: ts) acc tr).trace =
              (execTasksGo doc ex ts acc' (td.id :: tr)).trace := by
            simp [execTasksGo, hev]
          rw [this, htr]
          simp [AbstractTask.id]
        · intro v hv
          apply hok v
          have : (execTasksGo doc ex (.task td :: ts) acc tr).res =
              (execTasksGo doc ex ts acc' (td.id :: tr)).res := by
            simp [execTasksGo, hev]
          rw [← this]
          exact hv
    | otherSubclass c i n =>
      refine ⟨[], .otherSubclass c i n :: ts, rfl, by simp [execTasksGo], ?_⟩
      intro v hv
      simp [execTasksGo] at hv

theorem sortedTasks_perm (ts : List AbstractTask) :
    (sortedTasks ts).Perm ts :=
  List.mergeSort_perm ts _

theorem sortedTasks_sorted (ts : List AbstractTask) :
    List.Sorted (fun a b : AbstractTask => toWB a.id ≤ toWB b.id)
      (sortedTasks ts) := by
  have h := @List.sorted_mergeSort AbstractTask taskIdLe
    (by intro a b c hab hbc
        simp only [taskIdLe, decide_eq_true_iff] at *
        exact le_trans hab hbc)
    (by intro a b
        simp only [taskIdLe, Bool.or_eq_true, decide_eq_true_iff]
        exact le_total _ _)
    ts
  exact h.imp (by intro a b hab; simpa [taskIdLe] using hab)

/-- Claim C1: `exec_doc` invokes the task-executor callback in ascending
lexicographic order of task id, independent of declaration order: the
invocation trace is always (the ids of) a prefix of the id-sorted task
list, on success it is exactly the whole sorted list — one invocation per
declared task — and that sorted list is a permutation of the declared
tasks with ids in ascending order (`None` ordered first). -/
theorem exec_doc_invokes_tasks_in_id_order (doc : SedDocument)
    (wd : String) (ex : TaskExecutor) (cf : CalcFn) (ax : Bool)
    (fmts : List String) (st : FsState) :
    (∃ pre rest, sortedTasks doc.tasks = pre ++ rest ∧
      (exec_doc doc wd ex cf ax fmts st).trace =
        pre.map AbstractTask.id) ∧
    (∀ v, (exec_doc doc wd ex cf ax fmts st).res = .ok v →
      (exec_doc doc wd ex cf ax fmts st).trace =
        (sortedTasks doc.tasks).map AbstractTask.id) ∧
    ((sortedTasks doc.tasks).map AbstractTask.id).Perm
      (doc.tasks.map AbstractTask.id) ∧
    List.Sorted (fun x y : Option String => toWB x ≤ toWB y)
      ((sortedTasks doc.tasks).map AbstractTask.id) := by
  refine ⟨?_, ?_, (sortedTasks_perm doc.tasks).map _, ?_⟩
  · rcases hac : applyChangesGo ax wd doc.models st with ⟨st1, r⟩
    cases r with
    | error e =>
      refine ⟨[], sortedTasks doc.tasks, by simp, ?_⟩
      simp [exec_doc, hac]
    | ok p =>
      obtain ⟨models', files⟩ := p
      obtain ⟨pre, rest, hsplit, htr, hok⟩ :=
        execTasksGo_trace
          { doc with models := models', tasks := sortedTasks doc.tasks }
          ex (sortedTasks doc.tasks) [] []
      refine ⟨pre, rest, hsplit, ?_⟩
      simp only [List.reverse_nil, List.nil_append] at htr
      cases ht : (execTasksGo
          { doc with models := models', tasks := sortedTasks doc.tasks }
          ex (sortedTasks doc.tasks) [] []).res with
      | error e => simp [exec_doc, hac, ht, ← htr]
      | ok varRes =>
        cases hdg : calcDataGensGo cf varRes doc.data_generators [] with
        | error e => simp [exec_doc, hac, ht, hdg, ← htr]
        | ok dgr =>
          cases hon : (genOutputsGo dgr fmts doc.outputs [] [] []).res with
          | error e => simp [exec_doc, hac, ht, hdg, hon, ← htr]
          | ok reports => simp [exec_doc, hac, ht, hdg, hon, ← htr]
  · intro v hv
    rcases hac : applyChangesGo ax wd doc.models st with ⟨st1, r⟩
    cases r with
    | error e => simp [exec_doc, hac] at hv
    | ok p =>
      obtain ⟨models', files⟩ := p
      obtain ⟨pre, rest, hsplit, htr, hok⟩ :=
        execTasksGo_trace
          { doc with models := models', tasks := sortedTasks doc.tasks }
          ex (sortedTasks doc.tasks) [] []
      simp only [List.reverse_nil, List.nil_append] at htr
      cases ht : (execTasksGo
          { doc with models := models', tasks := sortedTasks doc.tasks }
          ex (sortedTasks doc.tasks) [] []).res with
      | error e => simp [exec_doc, hac, ht] at hv
      | ok varRes =>
        have hrest : rest = [] := hok varRes ht
        subst hrest
        rw [List.append_nil] at hsplit
        cases hdg : calcDataGensGo cf varRes doc.data_generators [] with
        | error e => simp [exec_doc, hac, ht, hdg] at hv
        | ok dgr =>
          cases hon : (genOutputsGo dgr fmts doc.outputs [] [] []).res with
          | error e => simp [exec_doc, hac, ht, hdg, hon] at hv
          | ok reports =>
            simp [exec_doc, hac, ht, hdg, hon, htr]
            rw [hsplit]
  · have := sortedTasks_sorted doc.tasks
    rw [List.Sorted, List.pairwise_map]
    exact this

/-- On the success path, the model-change loop reports exactly the
temporary files it created: the final live set is the initial one extended
by `files`, the recorded names are distinct, and all are fresh
(at or above the initial name supply). -/
theorem applyChangesGo_ok_files (ax : Bool) (wd : String) :
    ∀ (ms : List Model) (st st' : FsState) (ms' : List Model)
      (files : List Nat),
      applyChangesGo ax wd ms st = (st', .ok (ms', files)) →
      st'.tempsLive = st.tempsLive ++ files ∧ files.Nodup ∧
        ∀ x ∈ files, st.nextTemp ≤ x := by
  intro ms
  induction ms with
  | nil =>
    intro st st' ms' files h
    simp [applyChangesGo] at h
    obtain ⟨h1, _, h3⟩ := h
    subst h1; subst h3
    simp
  | cons m ms ih =>
    intro st st' ms' files h
    cases hsrc : m.source with
    | none => simp [applyChangesGo, hsrc] at h
    | some src =>
      by_cases hb : (ax && !m.changes.isEmpty) = true
      · simp only [applyChangesGo, hsrc, hb, if_true] at h
        rcases hrec : applyChangesGo ax wd ms
            ⟨st.nextTemp + 1, st.tempsLive ++ [st.nextTemp]⟩ with ⟨st2, r2⟩
        rw [hrec] at h
        cases r2 with
        | error e => simp at h
        | ok p =>
          obtain ⟨ms2, files2⟩ := p
          simp at h
          obtain ⟨h1, _, h3⟩ := h
          subst h1
          obtain ⟨hl, hnd, hge⟩ := ih _ _ _ _ hrec
          subst h3
          refine ⟨by simpa using hl, ?_, ?_⟩
          · refine List.nodup_cons.mpr ⟨?_, hnd⟩
            intro hmem
            have h4 := hge _ hmem
            simp at h4
          · intro x hx
            rcases List.mem_cons.mp hx with rfl | hx'
            · exact le_refl _
            · have h4 := hge _ hx'
              simp at h4
              omega
      · simp only [applyChangesGo, hsrc, hb, if_false] at h
        rcases hrec : applyChangesGo ax wd ms st with ⟨st2, r2⟩
        rw [hrec] at h
        cases r2 with
        | error e => simp at h
        | ok p =>
          obtain ⟨ms2, files2⟩ := p
          simp at h
          obtain ⟨h1, _, h3⟩ := h
          subst h1
          obtain ⟨hl, hnd, hge⟩ := ih _ _ _ _ hrec
          subst h3
          exact ⟨hl, hnd, hge⟩

/-- Erasing, in order, each element of a duplicate-free block appended to a
list removes exactly that block. -/
theorem foldl_erase_append :
    ∀ (files l : List Nat), files.Nodup → (∀ x ∈ files, x ∉ l) →
      files.foldl (fun acc n => acc.erase n) (l ++ files) = l := by
  intro files
  induction files with
  | nil => intro l _ _; simp
  | cons n fs ih =>
    intro l hnd hdisj
    have hstep : (l ++ n :: fs).erase n = l ++ fs := by
      rw [List.erase_append_right _ (hdisj n (by simp))]
      simp
    simp only [List.foldl_cons, hstep]
    have hnd' := (List.nodup_cons.mp hnd).2
    have hnotin := (List.nodup_cons.mp hnd).1
    exact ih l hnd' (by
      intro x hx
      rcases hx with _
      intro hxl
      exact hdisj x (by simp [hx]) hxl)

/-- Case analysis of one `exec_doc` run: the run either aborts in one of
the four stages (model changes, task execution, data-generator
computation, output shaping) with that stage's error — the temporaries
recorded so far staying live —, or succeeds and cleans up the
temporaries. -/
theorem exec_doc_run_cases (doc : SedDocument) (wd : String)
    (ex : TaskExecutor) (cf : CalcFn) (ax : Bool) (fmts : List String)
    (st : FsState) :
    (∃ st1 e, applyChangesGo ax wd doc.models st = (st1, .error e) ∧
      exec_doc doc wd ex cf ax fmts st = ⟨.error e, [], [], [], st1⟩) ∨
    (∃ st1 models' files,
      applyChangesGo ax wd doc.models st = (st1, .ok (models', files)) ∧
      (∃ t, t = execTasksGo
          { doc with models := models', tasks := sortedTasks doc.tasks }
          ex (sortedTasks doc.tasks) [] [] ∧
        ((∃ e, t.res = .error e ∧
           exec_doc doc wd ex cf ax fmts st =
             ⟨.error e, t.trace, [], [], st1⟩) ∨
         (∃ varRes, t.res = .ok varRes ∧
           ((∃ e, calcDataGensGo cf varRes doc.data_generators [] =
                .error e ∧
              exec_doc doc wd ex cf ax fmts st =
                ⟨.error e, t.trace, [], [], st1⟩) ∨
            (∃ dgr, calcDataGensGo cf varRes doc.data_generators [] =
                .ok dgr ∧
              (∃ o, o = genOutputsGo dgr fmts doc.outputs [] [] [] ∧
                ((∃ e, o.res = .error e ∧
                   exec_doc doc wd ex cf ax fmts st =
                     ⟨.error e, t.trace, o.warnings, o.writes, st1⟩) ∨
                 (∃ reports, o.res = .ok reports ∧
                   exec_doc doc wd ex cf ax fmts st =
                     ⟨.ok (reports, varRes), t.trace, o.warnings,
                      o.writes, cleanupTemps st1 files⟩))))))))) := by
  rcases hac : applyChangesGo ax wd doc.models st with ⟨st1, r⟩
  cases r with
  | error e =>
    exact .inl ⟨st1, e, rfl, by simp [exec_doc, hac]⟩
  | ok p =>
    obtain ⟨models', files⟩ := p
    refine .inr ⟨st1, models', files, rfl, _, rfl, ?_⟩
    cases ht : (execTasksGo
        { doc with models := models', tasks := sortedTasks doc.tasks }
        ex (sortedTasks doc.tasks) [] []).res with
    | error e =>
      exact .inl ⟨e, rfl, by simp [exec_doc, hac, ht]⟩
    | ok varRes =>
      refine .inr ⟨varRes, rfl, ?_⟩
      cases hdg : calcDataGensGo cf varRes doc.data_generators [] with
      | error e =>
        exact .inl ⟨e, rfl, by simp [exec_doc, hac, ht, hdg]⟩
      | ok dgr =>
        refine .inr ⟨dgr, rfl, _, rfl, ?_⟩
        cases hon : (genOutputsGo dgr fmts doc.outputs [] [] []).res with
        | error e =>
          exact .inl ⟨e, rfl, by simp [exec_doc, hac, ht, hdg, hon]⟩
        | ok reports =>
          exact .inr ⟨reports, rfl, by simp [exec_doc, hac, ht, hdg, hon]⟩

/-- Claim C2 counterexample: cleanup is not on every exit path.  A
document with one model carrying an XML attribute change and one task of
an unsupported kind, run with `apply_xml_model_changes` enabled, creates
the temporary modified model file and then aborts in the task loop
(sedml/exec.py line 119) — `exec_doc` propagates the error with the
temporary file still existing, because the cleanup loop (lines 169-171)
only runs after the output loop, with no try/finally. -/
theorem exec_doc_temp_leak_counterexample :
    (exec_doc
        ⟨1, 3,
          [⟨some "m1", none, some "model.xml", none,
            [⟨some "/x/y", some "2"⟩]⟩],
          [], [.otherSubclass "RepeatedTask" (some "rt") none], [], [],
          none⟩
        "/wd" (fun _ _ => []) (fun _ _ => .ok ⟨[1], 0⟩) true ["csv"]
        ⟨0, []⟩).res = .error (.unsupportedTask "RepeatedTask") ∧
    (exec_doc
        ⟨1, 3,
          [⟨some "m1", none, some "model.xml", none,
            [⟨some "/x/y", some "2"⟩]⟩],
          [], [.otherSubclass "RepeatedTask" (some "rt") none], [], [],
          none⟩
        "/wd" (fun _ _ => []) (fun _ _ => .ok ⟨[1], 0⟩) true ["csv"]
        ⟨0, []⟩).fs.tempsLive = [0] := by
  constructor <;>
    simp [exec_doc, applyChangesGo, sortedTasks, List.mergeSort,
      execTasksGo, isAbsPath, joinPath, tempPath]

/-- Claim C2 (amended): the scoped-resource guarantee holds only on the
success path.  When `exec_doc` (started with no temporaries live) returns
successfully, every temporary modified-model file has been removed; when a
fatal error propagates, the temporaries created so far are left on disk
(see the counterexample). -/
theorem exec_doc_removes_temps_on_success (doc : SedDocument)
    (wd : String) (ex : TaskExecutor) (cf : CalcFn) (ax : Bool)
    (fmts : List String) (n : Nat)
    (v : (List (Option String × ReportTable)) × VariableResults)
    (hv : (exec_doc doc wd ex cf ax fmts ⟨n, []⟩).res = .ok v) :
    (exec_doc doc wd ex cf ax fmts ⟨n, []⟩).fs.tempsLive = [] := by
  rcases exec_doc_run_cases doc wd ex cf ax fmts ⟨n, []⟩ with
    ⟨st1, e, hac, heq⟩ | ⟨st1, models', files, hac, t, htdef, hrest⟩
  · rw [heq] at hv; simp at hv
  · rcases hrest with ⟨e, ht, heq⟩ | ⟨varRes, ht, hrest⟩
    · rw [heq] at hv; simp at hv
    · rcases hrest with ⟨e, hdg, heq⟩ | ⟨dgr, hdg, o, hodef, hrest⟩
      · rw [heq] at hv; simp at hv
      · rcases hrest with ⟨e, hon, heq⟩ | ⟨reports, hon, heq⟩
        · rw [heq] at hv; simp at hv
        · rw [heq]
          obtain ⟨hlive, hnodup, _⟩ :=
            applyChangesGo_ok_files ax wd doc.models ⟨n, []⟩ st1 models'
              files hac
          show (cleanupTemps st1 files).tempsLive = []
          simp only [cleanupTemps]
          rw [hlive]
          simpa using foldl_erase_append files [] hnodup (by simp)

/-- Claim C2 (amended) witness: a successful run that creates one
temporary file ends with no temporaries live. -/
theorem exec_doc_removes_temps_on_success_witness :
    (exec_doc
        ⟨1, 3,
          [⟨some "m1", none, some "model.xml", none,
            [⟨some "/x/y", some "2"⟩]⟩],
          [], [], [], [], none⟩
        "/wd" (fun _ _ => []) (fun _ _ => .ok ⟨[1], 0⟩) true ["csv"]
        ⟨0, []⟩).fs.tempsLive = [] :=
  exec_doc_removes_temps_on_success _ "/wd" _ _ true ["csv"] 0 ([], [])
    (by simp [exec_doc, applyChangesGo, sortedTasks, List.mergeSort,
      execTasksGo, calcDataGensGo, genOutputsGo, cleanupTemps, isAbsPath,
      joinPath, tempPath])

/-- A missing-variable error from the per-task variable loop names a
variable that was requested and whose callback entry is absent or None. -/
theorem execVars_error (taskId : Option String)
    (m : List (Option String × Option NdArray)) :
    ∀ (vs : List DataGeneratorVariable) (acc : VariableResults)
      (e : ExecError), execVars taskId m vs acc = .error e →
      ∃ v ∈ vs, e = .missingVariable v.id taskId ∧
        pyDictGetFlat m v.id = none := by
  intro vs
  induction vs with
  | nil => intro acc e h; simp [execVars] at h
  | cons v vs ih =>
    intro acc e h
    cases hl : pyDictGetFlat m v.id with
    | none =>
      simp [execVars, hl] at h
      exact ⟨v, by simp, h.symm, hl⟩
    | some arr =>
      simp [execVars, hl] at h
      obtain ⟨v', hv', he, hn⟩ := ih _ _ h
      exact ⟨v', by simp [hv'], he, hn⟩

/-- When every requested variable has a non-None entry, the per-task
variable loop succeeds. -/
theorem execVars_ok (taskId : Option String)
    (m : List (Option String × Option NdArray)) :
    ∀ (vs : List DataGeneratorVariable) (acc : VariableResults),
      (∀ v ∈ vs, pyDictGetFlat m v.id ≠ none) →
      ∃ acc', execVars taskId m vs acc = .ok acc' := by
  intro vs
  induction vs with
  | nil => intro acc _; exact ⟨acc, rfl⟩
  | cons v vs ih =>
    intro acc hall
    cases hl : pyDictGetFlat m v.id with
    | none => exact absurd hl (hall v (by simp))
    | some arr =>
      obtain ⟨acc', hacc'⟩ := ih ((v.id, arr) :: acc)
        (fun v' hv' => hall v' (by simp [hv']))
      exact ⟨acc', by simp [execVars, hl, hacc']⟩

/-- A missing-variable error from the task loop names a task of the list
and one of the variables requested from it whose callback entry is absent
or None. -/
theorem execTasksGo_missingVariable (doc : SedDocument)
    (ex : TaskExecutor) :
    ∀ (ts : List AbstractTask) (acc : VariableResults)
      (tr : List (Option String)) (v t : Option String),
      (execTasksGo doc ex ts acc tr).res = .error (.missingVariable v t) →
      ∃ td, AbstractTask.task td ∈ ts ∧ td.id = t ∧
        (∃ var ∈ get_variables_for_task doc td, var.id = v) ∧
        pyDictGetFlat (ex td (get_variables_for_task doc td)) v = none := by
  intro ts
  induction ts with
  | nil => intro acc tr v t h; simp [execTasksGo] at h
  | cons task ts ih =>
    intro acc tr v t h
    cases task with
    | task td =>
      cases hev : execVars td.id (ex td (get_variables_for_task doc td))
          (get_variables_for_task doc td) acc with
      | error e =>
        simp [execTasksGo, hev] at h
        obtain ⟨var, hvar, he, hnone⟩ :=
          execVars_error td.id _ _ _ _ hev
        rw [h] at he
        obtain ⟨hv, ht⟩ : var.id = v ∧ td.id = t := by
          simp [ExecError.missingVariable.injEq] at he
          exact ⟨he.1.symm, he.2.symm⟩
        refine ⟨td, by simp, ht, ⟨var, hvar, hv⟩, ?_⟩
        rw [← hv]
        exact hnone
      | ok acc' =>
        have hres : (execTasksGo doc ex (.task td :: ts) acc tr).res =
            (execTasksGo doc ex ts acc' (td.id :: tr)).res := by
          simp [execTasksGo, hev]
        rw [hres] at h
        obtain ⟨td', hmem, ht, hvar, hnone⟩ := ih _ _ _ _ h
        exact ⟨td', by simp [hmem], ht, hvar, hnone⟩
    | otherSubclass c i n =>
      simp [execTasksGo] at h
    
/-- When every task's requested variables all have non-None callback
entries, the task loop never raises a missing-variable error. -/
theorem execTasksGo_no_missingVariable (doc : SedDocument)
    (ex : TaskExecutor) :
    ∀ (ts : List AbstractTask) (acc : VariableResults)
      (tr : List (Option String)),
      (∀ td, AbstractTask.task td ∈ ts →
        ∀ var ∈ get_variables_for_task doc td,
          pyDictGetFlat (ex td (get_variables_for_task doc td)) var.id ≠
            none) →
      ∀ v t, (execTasksGo doc ex ts acc tr).res ≠
        .error (.missingVariable v t) := by
  intro ts
  induction ts with
  | nil => intro acc tr _ v t h; simp [execTasksGo] at h
  | cons task ts ih =>
    intro acc tr hall v t h
    cases task with
    | task td =>
      obtain ⟨acc', hacc'⟩ := execVars_ok td.id
        (ex td (get_variables_for_task doc td))
        (get_variables_for_task doc td) acc
        (hall td (by simp))
      have hres : (execTasksGo doc ex (.task td :: ts) acc tr).res =
          (execTasksGo doc ex ts acc' (td.id :: tr)).res := by
        simp [execTasksGo, hacc']
      rw [hres] at h
      exact ih acc' (td.id :: tr)
        (fun td' hmem => hall td' (by simp [hmem])) v t h
    | otherSubclass c i n =>
      simp [execTasksGo] at h

/-- The model-change stage can only fail with a `TypeError` (a `None`
model source). -/
theorem applyChangesGo_error_typeError (ax : Bool) (wd : String) :
    ∀ (ms : List Model) (st st' : FsState) (e : ExecError),
      applyChangesGo ax wd ms st = (st', .error e) →
      ∃ w, e = .typeError w := by
  intro ms
  induction ms with
  | nil => intro st st' e h; simp [applyChangesGo] at h
  | cons m ms ih =>
    intro st st' e h
    cases hsrc : m.source with
    | none =>
      simp [applyChangesGo, hsrc] at h
      exact ⟨_, h.2.symm⟩
    | some src =>
      by_cases hb : (ax && !m.changes.isEmpty) = true
      · simp only [applyChangesGo, hsrc, hb, if_true] at h
        rcases hrec : applyChangesGo ax wd ms
            ⟨st.nextTemp + 1, st.tempsLive ++ [st.nextTemp]⟩ with ⟨st2, r2⟩
        rw [hrec] at h
        cases r2 with
        | error e2 =>
          simp at h
          rw [← h.2]
          exact ih _ _ _ hrec
        | ok p => simp at h
      · simp only [applyChangesGo, hsrc, hb, if_false] at h
        rcases hrec : applyChangesGo ax wd ms st with ⟨st2, r2⟩
        rw [hrec] at h
        cases r2 with
        | error e2 =>
          simp at h
          rw [← h.2]
          exact ih _ _ _ hrec
        | ok p => simp at h

/-- The data-generator stage can only fail with an error propagated from
the evaluator collaborator. -/
theorem calcDataGensGo_error_collaborator (cf : CalcFn)
    (varRes : VariableResults) :
    ∀ (dgs : List DataGenerator) (acc : List (Option String × NdArray))
      (e : ExecError),
      calcDataGensGo cf varRes dgs acc = .error e →
      ∃ msg, e = .collaboratorError msg := by
  intro dgs
  induction dgs with
  | nil => intro acc e h; simp [calcDataGensGo] at h
  | cons dg dgs ih =>
    intro acc e h
    cases hc : cf dg varRes with
    | error msg =>
      simp [calcDataGensGo, hc] at h
      exact ⟨msg, h.symm⟩
    | ok arr =>
      simp [calcDataGensGo, hc] at h
      exact ih _ _ h

/-- The data-set gathering loop can only fail with an `AttributeError` or
a `KeyError`. -/
theorem gatherDataSets_error (dgr : List (Option String × NdArray)) :
    ∀ (dss : List DataSet) (e : ExecError),
      gatherDataSets dgr dss = .error e →
      (∃ w, e = .attributeError w) ∨ (∃ k, e = .keyError k) := by
  intro dss
  induction dss with
  | nil => intro e h; simp [gatherDataSets] at h
  | cons ds dss ih =>
    intro e h
    cases hdg : ds.data_generator with
    | none =>
      simp [gatherDataSets, hdg] at h
      exact .inl ⟨_, h.symm⟩
    | some dg =>
      cases hl : pyDictGet dgr dg.id with
      | none =>
        simp [gatherDataSets, hdg, hl] at h
        exact .inr ⟨_, h.symm⟩
      | some arr =>
        simp only [gatherDataSets, hdg, hl] at h
        cases hrec : gatherDataSets dgr dss with
        | error e2 =>
          rw [hrec] at h
          simp at h
          rw [← h]
          exact ih _ hrec
        | ok tail => rw [hrec] at h; simp at h

/-- A report either shapes successfully or fails with the
shape-consistency error naming that report, an `AttributeError`, or a
`KeyError`. -/
theorem genReport_error (dgr : List (Option String × NdArray))
    (rid : Option String) (dss : List DataSet) (e : ExecError) :
    genReport dgr rid dss = .error e →
    e = .shapeMismatch rid ∨ (∃ w, e = .attributeError w) ∨
      (∃ k, e = .keyError k) := by
  intro h
  cases hg : gatherDataSets dgr dss with
  | error e2 =>
    simp [genReport, hg] at h
    rw [← h]
    exact .inr (gatherDataSets_error dgr dss e2 hg)
  | ok pairs =>
    simp only [genReport, hg] at h
    split at h
    · simp only [Except.error.injEq] at h
      exact .inl h.symm
    · simp at h

/-- An error of the output loop comes from some report of the list (which
fails to shape) or from an unsupported output subclass; plot outputs never
produce errors. -/
theorem genOutputsGo_error (dgr : List (Option String × NdArray))
    (fmts : List String) :
    ∀ (outs : List Output) (acc : List (Option String × ReportTable))
      (ws : List ExecWarning) (wr : List (String × Option String))
      (e : ExecError),
      (genOutputsGo dgr fmts outs acc ws wr).res = .error e →
      (∃ rid nm dss, Output.report rid nm dss ∈ outs ∧
        genReport dgr rid dss = .error e) ∨
      (∃ c, e = .unsupportedOutput c) := by
  intro outs
  induction outs with
  | nil => intro acc ws wr e h; simp [genOutputsGo] at h
  | cons o outs ih =>
    intro acc ws wr e h
    cases o with
    | report rid nm dss =>
      cases hr : genReport dgr rid dss with
      | error e2 =>
        simp [genOutputsGo, hr] at h
        rw [← h]
        exact .inl ⟨rid, nm, dss, by simp, hr⟩
      | ok p =>
        obtain ⟨tbl, ws'⟩ := p
        simp only [genOutputsGo, hr] at h
        rcases ih _ _ _ _ h with ⟨rid', nm', dss', hmem, herr⟩ | hother
        · exact .inl ⟨rid', nm', dss', by simp [hmem], herr⟩
        · exact .inr hother
    | plot2d pid nm cs =>
      simp only [genOutputsGo] at h
      rcases ih _ _ _ _ h with ⟨rid', nm', dss', hmem, herr⟩ | hother
      · exact .inl ⟨rid', nm', dss', by simp [hmem], herr⟩
      · exact .inr hother
    | plot3d pid nm srf =>
      simp only [genOutputsGo] at h
      rcases ih _ _ _ _ h with ⟨rid', nm', dss', hmem, herr⟩ | hother
      · exact .inl ⟨rid', nm', dss', by simp [hmem], herr⟩
      · exact .inr hother
    | otherSubclass c i n =>
      simp [genOutputsGo] at h
      exact .inr ⟨c, h.symm⟩

/-- Claim C3: if the task-executor callback's returned mapping omits a
requested variable id or maps it to None, `exec_doc` raises the
missing-result error, whose payload is the offending task id and variable
id and whose message text contains both; and when every requested variable
of every task has a non-None result, no missing-result error is raised
(sedml/exec.py lines 110-116). -/
theorem exec_doc_missing_variable_errors (doc : SedDocument) (wd : String)
    (ex : TaskExecutor) (cf : CalcFn) (ax : Bool) (fmts : List String)
    (st : FsState) :
    (∀ v t, (exec_doc doc wd ex cf ax fmts st).res =
        .error (.missingVariable v t) →
      (∃ td, AbstractTask.task td ∈ doc.tasks ∧ td.id = t ∧
        (∃ var ∈ get_variables_for_task doc td, var.id = v) ∧
        pyDictGetFlat (ex td (get_variables_for_task doc td)) v = none) ∧
      (∃ p q, (ExecError.missingVariable v t).message.data =
        p ++ (pyStrOpt v).data ++ q) ∧
      (∃ p q, (ExecError.missingVariable v t).message.data =
        p ++ (pyStrOpt t).data ++ q)) ∧
    ((∀ td, AbstractTask.task td ∈ doc.tasks →
        ∀ var ∈ get_variables_for_task doc td,
          pyDictGetFlat (ex td (get_variables_for_task doc td)) var.id ≠
            none) →
      ∀ v t, (exec_doc doc wd ex cf ax fmts st).res ≠
        .error (.missingVariable v t)) := by
  constructor
  · intro v t hres
    refine ⟨?_,
      ⟨("Variable ").data,
        (" must be generated for task " ++ pyStrOpt t).data,
        by simp [ExecError.message, String.data_append]⟩,
      ⟨("Variable " ++ pyStrOpt v ++
          " must be generated for task ").data, [],
        by simp [ExecError.message, String.data_append]⟩⟩
    rcases exec_doc_run_cases doc wd ex cf ax fmts st with
      ⟨st1, e, hac, heq⟩ | ⟨st1, models', files, hac, tt, httdef, hrest⟩
    · exfalso
      rw [heq] at hres
      simp at hres
      obtain ⟨w, hw⟩ :=
        applyChangesGo_error_typeError ax wd doc.models st st1 e hac
      rw [hres] at hw
      simp at hw
    · rcases hrest with ⟨e, ht, heq⟩ | ⟨varRes, ht, hrest⟩
      · rw [heq] at hres
        simp at hres
        rw [hres] at ht
        rw [httdef] at ht
        obtain ⟨td, hmem, hid, hvar, hnone⟩ :=
          execTasksGo_missingVariable _ ex _ _ _ _ _ ht
        refine ⟨td, ?_, hid, hvar, hnone⟩
        exact (sortedTasks_perm doc.tasks).mem_iff.mp hmem
      · rcases hrest with ⟨e, hdg, heq⟩ | ⟨dgr, hdg, o, hodef, hrest⟩
        · exfalso
          rw [heq] at hres
          simp at hres
          obtain ⟨msg, hmsg⟩ :=
            calcDataGensGo_error_collaborator cf varRes
              doc.data_generators [] e hdg
          rw [hres] at hmsg
          simp at hmsg
        · rcases hrest with ⟨e, hon, heq⟩ | ⟨reports, hon, heq⟩
          · exfalso
            rw [heq] at hres
            simp at hres
            rw [hodef] at hon
            rcases genOutputsGo_error dgr fmts doc.outputs [] [] [] e hon
              with ⟨rid, nm, dss, _, herr⟩ | ⟨c, hc⟩
            · rcases genReport_error dgr rid dss e herr with
                h1 | ⟨w, h2⟩ | ⟨k, h3⟩
              · rw [hres] at h1; simp at h1
              · rw [hres] at h2; simp at h2
              · rw [hres] at h3; simp at h3
            · rw [hres] at hc; simp at hc
          · rw [heq] at hres
            simp at hres
  · intro hall v t hres
    rcases exec_doc_run_cases doc wd ex cf ax fmts st with
      ⟨st1, e, hac, heq⟩ | ⟨st1, models', files, hac, tt, httdef, hrest⟩
    · rw [heq] at hres
      simp at hres
      obtain ⟨w, hw⟩ :=
        applyChangesGo_error_typeError ax wd doc.models st st1 e hac
      rw [hres] at hw
      simp at hw
    · rcases hrest with ⟨e, ht, heq⟩ | ⟨varRes, ht, hrest⟩
      · rw [heq] at hres
        simp at hres
        rw [hres] at ht
        rw [httdef] at ht
        exact execTasksGo_no_missingVariable
          { doc with models := models', tasks := sortedTasks doc.tasks }
          ex (sortedTasks doc.tasks) [] []
          (fun td hm =>
            hall td ((sortedTasks_perm doc.tasks).mem_iff.mp hm))
          v t ht
      · rcases hrest with ⟨e, hdg, heq⟩ | ⟨dgr, hdg, o, hodef, hrest⟩
        · rw [heq] at hres
          simp at hres
          obtain ⟨msg, hmsg⟩ :=
            calcDataGensGo_error_collaborator cf varRes
              doc.data_generators [] e hdg
          rw [hres] at hmsg
          simp at hmsg
        · rcases hrest with ⟨e, hon, heq⟩ | ⟨reports, hon, heq⟩
          · rw [heq] at hres
            simp at hres
            rw [hodef] at hon
            rcases genOutputsGo_error dgr fmts doc.outputs [] [] [] e hon
              with ⟨rid, nm, dss, _, herr⟩ | ⟨c, hc⟩
            · rcases genReport_error dgr rid dss e herr with
                h1 | ⟨w, h2⟩ | ⟨k, h3⟩
              · rw [hres] at h1; simp at h1
              · rw [hres] at h2; simp at h2
              · rw [hres] at h3; simp at h3
            · rw [hres] at hc; simp at hc
          · rw [heq] at hres
            simp at hres

/-- The task loop can only fail with a missing-variable error or an
unsupported-task error. -/
theorem execTasksGo_error_classification (doc : SedDocument)
    (ex : TaskExecutor) :
    ∀ (ts : List AbstractTask) (acc : VariableResults)
      (tr : List (Option String)) (e : ExecError),
      (execTasksGo doc ex ts acc tr).res = .error e →
      (∃ v t, e = .missingVariable v t) ∨ (∃ c, e = .unsupportedTask c) := by
  intro ts
  induction ts with
  | nil => intro acc tr e h; simp [execTasksGo] at h
  | cons task ts ih =>
    intro acc tr e h
    cases task with
    | task td =>
      cases hev : execVars td.id (ex td (get_variables_for_task doc td))
          (get_variables_for_task doc td) acc with
      | error e2 =>
        simp [execTasksGo, hev] at h
        obtain ⟨v, _, he, _⟩ := execVars_error td.id _ _ _ _ hev
        rw [← h, he]
        exact .inl ⟨v.id, td.id, rfl⟩
      | ok acc' =>
        have hres : (execTasksGo doc ex (.task td :: ts) acc tr).res =
            (execTasksGo doc ex ts acc' (td.id :: tr)).res := by
          simp [execTasksGo, hev]
        rw [hres] at h
        exact ih _ _ _ h
    | otherSubclass c i n =>
      simp [execTasksGo] at h
      exact .inr ⟨c, h.symm⟩

/-- The shape-consistency condition of a report (sedml/exec.py lines
132-140): the gathered data-set result arrays exhibit more than one
distinct shape.  `false` when gathering itself crashes. -/
def reportHasShapeProblem (dgr : List (Option String × NdArray))
    (dss : List DataSet) : Bool :=
  match gatherDataSets dgr dss with
  | .ok pairs =>
    decide (1 <
      (((pairs.map (fun p => p.2)).map (fun a => a.shape)).dedup).length)
  | .error _ => false

/-- A report raises the shape-consistency error naming itself exactly when
its gathered arrays have more than one distinct shape. -/
theorem genReport_shapeMismatch_iff (dgr : List (Option String × NdArray))
    (rid : Option String) (dss : List DataSet) :
    genReport dgr rid dss = .error (.shapeMismatch rid) ↔
      reportHasShapeProblem dgr dss = true := by
  cases hg : gatherDataSets dgr dss with
  | error e =>
    simp only [genReport, reportHasShapeProblem, hg]
    constructor
    · intro h
      simp at h
      rcases gatherDataSets_error dgr dss e hg with ⟨w, hw⟩ | ⟨k, hk⟩
      · rw [hw] at h; simp at h
      · rw [hk] at h; simp at h
    · intro h; simp at h
  | ok pairs =>
    simp only [genReport, reportHasShapeProblem, hg]
    split
    · rename_i hcond
      simp [hcond]
      simpa [List.map_map] using hcond
    · rename_i hcond
      constructor
      · intro h; simp at h
      · intro h
        simp only [decide_eq_true_iff] at h
        exact absurd h hcond

/-- Claim C4: per-report shape consistency.  A report whose bound
data-generator result arrays have more than one distinct shape makes
`exec_doc` raise the shape-consistency error carrying (and naming in its
message) that report's id; and when, in a run whose earlier stages
succeed, every report's gathered arrays share at most one distinct shape,
no shape-consistency error is raised (sedml/exec.py lines 128-148). -/
theorem exec_doc_report_shape_consistency (doc : SedDocument)
    (wd : String) (ex : TaskExecutor) (cf : CalcFn) (ax : Bool)
    (fmts : List String) (st : FsState) :
    (∀ dgr rid dss,
      genReport dgr rid dss = .error (.shapeMismatch rid) ↔
        reportHasShapeProblem dgr dss = true) ∧
    (∀ rid, (exec_doc doc wd ex cf ax fmts st).res =
        .error (.shapeMismatch rid) →
      (∃ st1 models' files varRes dgr nm dss,
        applyChangesGo ax wd doc.models st = (st1, .ok (models', files)) ∧
        (execTasksGo
          { doc with models := models', tasks := sortedTasks doc.tasks }
          ex (sortedTasks doc.tasks) [] []).res = .ok varRes ∧
        calcDataGensGo cf varRes doc.data_generators [] = .ok dgr ∧
        Output.report rid nm dss ∈ doc.outputs ∧
        reportHasShapeProblem dgr dss = true) ∧
      (∃ p q, (ExecError.shapeMismatch rid).message.data =
        p ++ (pyStrOpt rid).data ++ q)) ∧
    (∀ st1 models' files varRes dgr,
      applyChangesGo ax wd doc.models st = (st1, .ok (models', files)) →
      (execTasksGo
        { doc with models := models', tasks := sortedTasks doc.tasks }
        ex (sortedTasks doc.tasks) [] []).res = .ok varRes →
      calcDataGensGo cf varRes doc.data_generators [] = .ok dgr →
      (∀ rid nm dss, Output.report rid nm dss ∈ doc.outputs →
        reportHasShapeProblem dgr dss = false) →
      ∀ rid, (exec_doc doc wd ex cf ax fmts st).res ≠
        .error (.shapeMismatch rid)) := by
  refine ⟨genReport_shapeMismatch_iff, ?_, ?_⟩
  · intro rid hres
    refine ⟨?_, ⟨("Data generators for report ").data,
      (" must have consistent shapes").data,
      by simp [ExecError.message, String.data_append]⟩⟩
    rcases exec_doc_run_cases doc wd ex cf ax fmts st with
      ⟨st1, e, hac, heq⟩ | ⟨st1, models', files, hac, tt, httdef, hrest⟩
    · exfalso
      rw [heq] at hres
      simp at hres
      obtain ⟨w, hw⟩ :=
        applyChangesGo_error_typeError ax wd doc.models st st1 e hac
      rw [hres] at hw
      simp at hw
    · rcases hrest with ⟨e, ht, heq⟩ | ⟨varRes, ht, hrest⟩
      · exfalso
        rw [heq] at hres
        simp at hres
        rw [hres] at ht
        rw [httdef] at ht
        rcases execTasksGo_error_classification _ ex _ _ _ _ ht with
          ⟨v, t, hvt⟩ | ⟨c, hc⟩
        · simp at hvt
        · simp at hc
      · rcases hrest with ⟨e, hdg, heq⟩ | ⟨dgr, hdg, o, hodef, hrest⟩
        · exfalso
          rw [heq] at hres
          simp at hres
          obtain ⟨msg, hmsg⟩ :=
            calcDataGensGo_error_collaborator cf varRes
              doc.data_generators [] e hdg
          rw [hres] at hmsg
          simp at hmsg
        · rcases hrest with ⟨e, hon, heq⟩ | ⟨reports, hon, heq⟩
          · rw [heq] at hres
            simp at hres
            rw [hodef] at hon
            rcases genOutputsGo_error dgr fmts doc.outputs [] [] [] e hon
              with ⟨rid', nm, dss, hmem, herr⟩ | ⟨c, hc⟩
            · rcases genReport_error dgr rid' dss e herr with
                h1 | ⟨w, h2⟩ | ⟨k, h3⟩
              · rw [hres] at h1
                have hrideq : rid' = rid := by
                  simp [ExecError.shapeMismatch.injEq] at h1
                  exact h1.symm
                subst hrideq
                rw [hres] at herr
                refine ⟨st1, models', files, varRes, dgr, nm, dss,
                  hac, by rw [← httdef]; exact ht, hdg, hmem, ?_⟩
                exact (genReport_shapeMismatch_iff dgr rid' dss).mp herr
              · exfalso; rw [hres] at h2; simp at h2
              · exfalso; rw [hres] at h3; simp at h3
            · exfalso; rw [hres] at hc; simp at hc
          · exfalso
            rw [heq] at hres
            simp at hres
  · intro st1 models' files varRes dgr hac ht hdg hall rid hres
    rcases exec_doc_run_cases doc wd ex cf ax fmts st with
      ⟨st1', e, hac', heq⟩ | ⟨st1', models'', files'', hac', tt, httdef,
        hrest⟩
    · rw [hac] at hac'
      simp at hac'
    · rw [hac] at hac'
      simp at hac'
      obtain ⟨h1, h2, h3⟩ := hac'
      subst h1; subst h2; subst h3
      rcases hrest with ⟨e, ht', heq⟩ | ⟨varRes', ht', hrest⟩
      · rw [httdef] at ht'
        rw [ht] at ht'
        simp at ht'
      · rw [httdef] at ht'
        rw [ht] at ht'
        simp at ht'
        subst ht'
        rcases hrest with ⟨e, hdg', heq⟩ | ⟨dgr', hdg', o, hodef, hrest⟩
        · rw [hdg] at hdg'
          simp at hdg'
        · rw [hdg] at hdg'
          simp at hdg'
          subst hdg'
          rcases hrest with ⟨e, hon, heq⟩ | ⟨reports, hon, heq⟩
          · rw [heq] at hres
            simp at hres
            rw [hodef] at hon
            rw [hres] at hon
            rcases genOutputsGo_error dgr fmts doc.outputs [] [] []
              (.shapeMismatch rid) hon with
              ⟨rid', nm, dss, hmem, herr⟩ | ⟨c, hc⟩
            · rcases genReport_error dgr rid' dss _ herr with
                h1 | ⟨w, h2⟩ | ⟨k, h3⟩
              · have hrideq : rid = rid' := by
                  simp [ExecError.shapeMismatch.injEq] at h1
                  exact h1
                subst hrideq
                have := (genReport_shapeMismatch_iff dgr rid dss).mp herr
                rw [hall rid nm dss hmem] at this
                simp at this
              · simp at h2
              · simp at h3
            · simp at hc
          · rw [heq] at hres
            simp at hres

/-- An output the output loop handles without raising: a report that
shapes successfully, or a plot (always skipped with a warning).  Any other
`Output` subclass raises `NotImplementedError`. -/
def outputSupported (dgr : List (Option String × NdArray)) : Output → Prop
  | .report rid _ dss => ∃ tbl ws, genReport dgr rid dss = .ok (tbl, ws)
  | .plot2d _ _ _ => True
  | .plot3d _ _ _ => True
  | .otherSubclass _ _ _ => False

/-- The ids of the `Report` outputs of a list, in order. -/
def reportIds (outs : List Output) : List (Option String) :=
  outs.filterMap (fun o =>
    match o with
    | .report rid _ _ => some rid
    | _ => none)

/-- Characterization of the output loop when every output is a
successfully-shaping report or a plot: it succeeds, produces exactly one
table per report (in order), accumulates every report's duplicate-label
warnings and one feature-not-supported warning per plot, and records one
write per report and requested format. -/
theorem genOutputsGo_all_supported (dgr : List (Option String × NdArray))
    (fmts : List String) :
    ∀ (outs : List Output) (acc : List (Option String × ReportTable))
      (ws : List ExecWarning) (wr : List (String × Option String)),
      (∀ o ∈ outs, outputSupported dgr o) →
      ∃ tbls,
        (genOutputsGo dgr fmts outs acc ws wr).res = .ok tbls ∧
        tbls.map (fun p => p.1) =
          acc.map (fun p => p.1) ++ reportIds outs ∧
        (∀ x ∈ acc, x ∈ tbls) ∧
        (∀ w ∈ ws, w ∈ (genOutputsGo dgr fmts outs acc ws wr).warnings) ∧
        (∀ x ∈ wr, x ∈ (genOutputsGo dgr fmts outs acc ws wr).writes) ∧
        (∀ pid nm cs, Output.plot2d pid nm cs ∈ outs →
          ExecWarning.featureNotSupported pid "Plot2D" ∈
            (genOutputsGo dgr fmts outs acc ws wr).warnings) ∧
        (∀ pid nm srf, Output.plot3d pid nm srf ∈ outs →
          ExecWarning.featureNotSupported pid "Plot3D" ∈
            (genOutputsGo dgr fmts outs acc ws wr).warnings) ∧
        (∀ rid nm dss tbl ws', Output.report rid nm dss ∈ outs →
          genReport dgr rid dss = .ok (tbl, ws') →
          (rid, tbl) ∈ tbls ∧
          (∀ w ∈ ws', w ∈
            (genOutputsGo dgr fmts outs acc ws wr).warnings) ∧
          (∀ f ∈ fmts, (f, rid) ∈
            (genOutputsGo dgr fmts outs acc ws wr).writes)) := by
  intro outs
  induction outs with
  | nil =>
    intro acc ws wr _
    refine ⟨acc, rfl, by simp [reportIds], fun x hx => hx,
      fun w hw => hw, fun x hx => hx, by simp, by simp, by simp⟩
  | cons o outs ih =>
    intro acc ws wr hall
    cases o with
    | report rid nm dss =>
      have hsup : outputSupported dgr (.report rid nm dss) :=
        hall (.report rid nm dss) (by simp)
      obtain ⟨tbl, ws0, hrep⟩ := hsup
      obtain ⟨tbls, hres, hmap, hacc, hws, hwr, hp2, hp3, hreps⟩ :=
        ih (acc ++ [(rid, tbl)]) (ws ++ ws0)
          (wr ++ fmts.map (fun f => (f, rid)))
          (fun o ho => hall o (by simp [ho]))
      have hgo : genOutputsGo dgr fmts (.report rid nm dss :: outs) acc
          ws wr =
          genOutputsGo dgr fmts outs (acc ++ [(rid, tbl)]) (ws ++ ws0)
            (wr ++ fmts.map (fun f => (f, rid))) := by
        simp [genOutputsGo, hrep]
      rw [hgo]
      refine ⟨tbls, hres, ?_, ?_, ?_, ?_, ?_, ?_, ?_⟩
      · rw [hmap]
        simp [reportIds]
      · intro x hx
        exact hacc x (by simp [hx])
      · intro w hw
        exact hws w (by simp [hw])
      · intro x hx
        exact hwr x (by simp [hx])
      · intro pid nm' cs hmem
        exact hp2 pid nm' cs (by simpa using hmem)
      · intro pid nm' srf hmem
        exact hp3 pid nm' srf (by simpa using hmem)
      · intro rid' nm' dss' tbl' ws1 hmem hrep'
        rcases List.mem_cons.mp hmem with hhead | htail
        · have h1 : rid' = rid ∧ nm' = nm ∧ dss' = dss := by
            simpa [Output.report.injEq] using hhead
          obtain ⟨hr1, _, hr3⟩ := h1
          subst hr1; subst hr3
          rw [hrep] at hrep'
          simp at hrep'
          obtain ⟨htbl, hws1⟩ := hrep'
          subst htbl
          refine ⟨hacc _ (by simp), ?_, ?_⟩
          · intro w hw
            subst hws1
            exact hws w (by simp [hw])
          · intro f hf
            apply hwr
            simp only [List.mem_append]
            right
            exact List.mem_map.mpr ⟨f, hf, rfl⟩
        · exact hreps rid' nm' dss' tbl' ws1 htail hrep'
    | plot2d pid nm cs =>
      obtain ⟨tbls, hres, hmap, hacc, hws, hwr, hp2, hp3, hreps⟩ :=
        ih acc (ws ++ [.featureNotSupported pid "Plot2D"]) wr
          (fun o ho => hall o (by simp [ho]))
      have hgo : genOutputsGo dgr fmts (.plot2d pid nm cs :: outs) acc
          ws wr =
          genOutputsGo dgr fmts outs acc
            (ws ++ [.featureNotSupported pid "Plot2D"]) wr := by
        simp [genOutputsGo]
      rw [hgo]
      refine ⟨tbls, hres, by rw [hmap]; simp [reportIds],
        hacc, ?_, hwr, ?_, ?_, ?_⟩
      · intro w hw
        exact hws w (by simp [hw])
      · intro pid' nm' cs' hmem
        rcases List.mem_cons.mp hmem with hhead | htail
        · have h1 : pid' = pid ∧ nm' = nm ∧ cs' = cs := by
            simpa [Output.plot2d.injEq] using hhead
          exact hws _ (by simp [h1.1])
        · exact hp2 pid' nm' cs' htail
      · intro pid' nm' srf hmem
        exact hp3 pid' nm' srf (by simpa using hmem)
      · intro rid' nm' dss' tbl' ws1 hmem hrep'
        obtain ⟨h1, h2, h3⟩ := hreps rid' nm' dss' tbl' ws1
          (by simpa using hmem) hrep'
        exact ⟨h1, h2, h3⟩
    | plot3d pid nm srf =>
      obtain ⟨tbls, hres, hmap, hacc, hws, hwr, hp2, hp3, hreps⟩ :=
        ih acc (ws ++ [.featureNotSupported pid "Plot3D"]) wr
          (fun o ho => hall o (by simp [ho]))
      have hgo : genOutputsGo dgr fmts (.plot3d pid nm srf :: outs) acc
          ws wr =
          genOutputsGo dgr fmts outs acc
            (ws ++ [.featureNotSupported pid "Plot3D"]) wr := by
        simp [genOutputsGo]
      rw [hgo]
      refine ⟨tbls, hres, by rw [hmap]; simp [reportIds],
        hacc, ?_, hwr, ?_, ?_, ?_⟩
      · intro w hw
        exact hws w (by simp [hw])
      · intro pid' nm' cs' hmem
        exact hp2 pid' nm' cs' (by simpa using hmem)
      · intro pid' nm' srf' hmem
        rcases List.mem_cons.mp hmem with hhead | htail
        · have h1 : pid' = pid ∧ nm' = nm ∧ srf' = srf := by
            simpa [Output.plot3d.injEq] using hhead
          exact hws _ (by simp [h1.1])
        · exact hp3 pid' nm' srf' htail
      · intro rid' nm' dss' tbl' ws1 hmem hrep'
        exact hreps rid' nm' dss' tbl' ws1 (by simpa using hmem) hrep'
    | otherSubclass c i n =>
      exact absurd (hall (.otherSubclass c i n) (by simp))
        (by simp [outputSupported])

/-- Claim C7: during output shaping, duplicate data-set labels and plot
outputs are warnings, never errors.  When every output is a plot or a
successfully-shaping report, the output loop succeeds with exactly one
table per report in order; each `Plot2D`/`Plot3D` output is skipped with a
feature-not-supported warning while the remaining outputs are still
processed; and a report with duplicate labels is still produced and
written (once per requested format) with its duplicate-label warning
emitted (sedml/exec.py lines 128-167). -/
theorem outputs_dup_labels_and_plots_warn_not_raise
    (dgr : List (Option String × NdArray)) (fmts : List String)
    (outs : List Output) (h : ∀ o ∈ outs, outputSupported dgr o) :
    (∃ tbls, (genOutputsGo dgr fmts outs [] [] []).res = .ok tbls ∧
      tbls.map (fun p => p.1) = reportIds outs) ∧
    (∀ pid nm cs, Output.plot2d pid nm cs ∈ outs →
      ExecWarning.featureNotSupported pid "Plot2D" ∈
        (genOutputsGo dgr fmts outs [] [] []).warnings) ∧
    (∀ pid nm srf, Output.plot3d pid nm srf ∈ outs →
      ExecWarning.featureNotSupported pid "Plot3D" ∈
        (genOutputsGo dgr fmts outs [] [] []).warnings) ∧
    (∀ rid nm dss tbl ws, Output.report rid nm dss ∈ outs →
      genReport dgr rid dss = .ok (tbl, ws) →
      (∃ tbls, (genOutputsGo dgr fmts outs [] [] []).res = .ok tbls ∧
        (rid, tbl) ∈ tbls) ∧
      (∀ w ∈ ws, w ∈ (genOutputsGo dgr fmts outs [] [] []).warnings) ∧
      (∀ f ∈ fmts, (f, rid) ∈
        (genOutputsGo dgr fmts outs [] [] []).writes)) := by
  obtain ⟨tbls, hres, hmap, _, _, _, hp2, hp3, hreps⟩ :=
    genOutputsGo_all_supported dgr fmts outs [] [] [] h
  refine ⟨⟨tbls, hres, by simpa using hmap⟩, hp2, hp3, ?_⟩
  intro rid nm dss tbl ws hmem hrep
  obtain ⟨h1, h2, h3⟩ := hreps rid nm dss tbl ws hmem hrep
  exact ⟨⟨tbls, hres, h1⟩, h2, h3⟩

/-- Claim C7 witness: a concrete output list with one 2D plot and one
report whose two data sets share the label "x"; the loop warns for the
plot and continues. -/
theorem outputs_dup_labels_and_plots_warn_not_raise_witness :
    ExecWarning.featureNotSupported (some "p") "Plot2D" ∈
      (genOutputsGo [(some "d", ⟨[3], 0⟩)] ["csv"]
        [.plot2d (some "p") none [],
         .report (some "r") none
           [⟨some "ds1", none, some "x",
             some ⟨some "d", none, [], [], none⟩⟩,
            ⟨some "ds2", none, some "x",
             some ⟨some "d", none, [], [], none⟩⟩]]
        [] [] []).warnings :=
  (outputs_dup_labels_and_plots_warn_not_raise
    [(some "d", ⟨[3], 0⟩)] ["csv"]
    [.plot2d (some "p") none [],
     .report (some "r") none
       [⟨some "ds1", none, some "x",
         some ⟨some "d", none, [], [], none⟩⟩,
        ⟨some "ds2", none, some "x",
         some ⟨some "d", none, [], [], none⟩⟩]]
    (by
      intro o ho
      rcases List.mem_cons.mp ho with rfl | ho2
      · trivial
      · rcases List.mem_cons.mp ho2 with rfl | ho3
        · refine ⟨⟨[some "x", some "x"], [⟨[3], 0⟩, ⟨[3], 0⟩]⟩,
            [.illogicalSedml dupLabelWarningMsg], ?_⟩
          simp [genReport, gatherDataSets, pyDictGet, dupLabelWarningMsg]
        · simp at ho3)).2.1 (some "p") none [] (by simp)
